import Mathlib

/-!
# Dealer-asset chaincode (`d_asset.go`)

A shallow embedding of the chaincode `SimpleChaincode` of `d_asset.go`:
the record type `DealerAsset`, the dispatcher `Invoke` and the four handlers
`createAsset`, `updateAsset`, `queryAsset` and `getAssetHistory`.

Go strings and byte slices are sequences of bytes.  The handlers run against
`shim.ChaincodeStubInterface`, an interface whose implementation is not part of
the repository; it is modelled as an explicit state (`Stub`) that is threaded
through every handler.  `encoding/json` and `unicode/utf8` of the Go standard
library are modelled at the byte level.
-/

namespace DAsset

/-! ## Bytes and strings -/

/-- A byte (`uint8`). -/
abbrev Byte := Fin 256

/-- A Go `string`: an immutable sequence of bytes, not necessarily valid UTF-8. -/
abbrev GoString := List Byte

/-- A Go `[]byte`.  The nil slice and the empty slice are both `[]`; where the
program tells nil apart (`GetState`), an `Option` is used. -/
abbrev Bytes := List Byte

/-- A string literal of the Go source.  Every literal of `d_asset.go` is ASCII,
so each character is exactly one byte. -/
def lit (s : String) : GoString := s.toList.map (fun c => Fin.ofNat c.toNat)

/-! ## `unicode/utf8` -/

/-- The rune `utf8.RuneError` (U+FFFD). -/
def RuneError : Nat := 0xFFFD

/-- Width of the encoding that starts with the byte `s0`, for `0xC2 ≤ s0 ≤ 0xF4`
(the low bits `first[s0] & 7` of the table `first` of `unicode/utf8`). -/
def seqSize (s0 : Nat) : Nat := if s0 < 0xE0 then 2 else if s0 < 0xF0 then 3 else 4

/-- Lowest second byte accepted after the first byte `s0`
(`acceptRanges[first[s0] >> 4].lo`). -/
def acceptLo (s0 : Nat) : Nat := if s0 = 0xE0 then 0xA0 else if s0 = 0xF0 then 0x90 else 0x80

/-- Highest second byte accepted after the first byte `s0`
(`acceptRanges[first[s0] >> 4].hi`). -/
def acceptHi (s0 : Nat) : Nat := if s0 = 0xED then 0x9F else if s0 = 0xF4 then 0x8F else 0xBF

/-- Go `utf8.DecodeRune` / `utf8.DecodeRuneInString`: the first rune of `s` and
its width in bytes; `(RuneError, 1)` for an invalid or truncated encoding and
`(RuneError, 0)` for the empty input.  The masks and shifts are written as the
equal arithmetic (`s0 & 0x1F` is `s0 % 32`, `<< 6` is `* 64`, the `|` of
disjoint bit fields is `+`). -/
def DecodeRune (s : List Byte) : Nat × Nat :=
  match s with
  | [] => (RuneError, 0)
  | s0 :: t =>
    if s0.val < 0x80 then (s0.val, 1)
    else if s0.val < 0xC2 ∨ 0xF4 < s0.val then (RuneError, 1)
    else if s.length < seqSize s0.val then (RuneError, 1)
    else
      match t with
      | [] => (RuneError, 1)
      | s1 :: t1 =>
        if s1.val < acceptLo s0.val ∨ acceptHi s0.val < s1.val then (RuneError, 1)
        else if seqSize s0.val ≤ 2 then ((s0.val % 32) * 64 + s1.val % 64, 2)
        else
          match t1 with
          | [] => (RuneError, 1)
          | s2 :: t2 =>
            if s2.val < 0x80 ∨ 0xBF < s2.val then (RuneError, 1)
            else if seqSize s0.val ≤ 3 then
              ((s0.val % 16) * 4096 + (s1.val % 64) * 64 + s2.val % 64, 3)
            else
              match t2 with
              | [] => (RuneError, 1)
              | s3 :: _ =>
                if s3.val < 0x80 ∨ 0xBF < s3.val then (RuneError, 1)
                else
                  ((s0.val % 8) * 262144 + (s1.val % 64) * 4096
                    + (s2.val % 64) * 64 + s3.val % 64, 4)

/-- Go `utf8.EncodeRune` for a non-negative rune: the UTF-8 encoding of `r`,
with surrogates and values above `utf8.MaxRune` encoded as `RuneError`. -/
def EncodeRune (r : Nat) : List Byte :=
  if r ≤ 0x7F then [Fin.ofNat r]
  else if r ≤ 0x7FF then [Fin.ofNat (0xC0 + r / 64), Fin.ofNat (0x80 + r % 64)]
  else if 0x10FFFF < r ∨ (0xD800 ≤ r ∧ r ≤ 0xDFFF) then [0xEF, 0xBF, 0xBD]
  else if r ≤ 0xFFFF then
    [Fin.ofNat (0xE0 + r / 4096), Fin.ofNat (0x80 + (r / 64) % 64), Fin.ofNat (0x80 + r % 64)]
  else
    [Fin.ofNat (0xF0 + r / 262144), Fin.ofNat (0x80 + (r / 4096) % 64),
      Fin.ofNat (0x80 + (r / 64) % 64), Fin.ofNat (0x80 + r % 64)]

/-- Loop of `utf8.ValidString`, with the input length as the bound on the
iterations. -/
def validLoop : Nat → List Byte → Bool
  | 0, s => s.isEmpty
  | _ + 1, [] => true
  | fuel + 1, b :: rest =>
    if b.val < 0x80 then validLoop fuel rest
    else
      let d := DecodeRune (b :: rest)
      if d.2 = 1 then false else validLoop fuel (rest.drop (d.2 - 1))

/-- Go `utf8.ValidString`: `s` consists entirely of valid UTF-8 encoded runes. -/
def ValidString (s : GoString) : Bool := validLoop s.length s

/-- Loop of the coercion to valid UTF-8 that the JSON codec performs: a byte
that does not start a valid encoding is replaced by the encoding of U+FFFD (one
replacement per invalid byte), every valid encoding is kept. -/
def coerceLoop : Nat → List Byte → List Byte
  | 0, _ => []
  | _ + 1, [] => []
  | fuel + 1, b :: rest =>
    if b.val < 0x80 then b :: coerceLoop fuel rest
    else
      let d := DecodeRune (b :: rest)
      EncodeRune d.1 ++ coerceLoop fuel (rest.drop (d.2 - 1))

/-- The string `s` coerced to valid UTF-8: each invalid byte becomes U+FFFD. -/
def coerceUTF8 (s : GoString) : GoString := coerceLoop s.length s

/-! ## The record -/

/-- Go `type DealerAsset struct`, eight string fields. -/
structure DealerAsset where
  DEALERID : GoString
  MSISDN : GoString
  MPIN : GoString
  BALANCE : GoString
  STATUS : GoString
  TRANSAMOUNT : GoString
  TRANSTYPE : GoString
  REMARKS : GoString
  deriving DecidableEq, Repr

/-! ## `encoding/json`: encoding -/

/-- The lower-case hexadecimal digit of `n < 16` (`hex[n]` of `encoding/json`). -/
def hexDigit (n : Nat) : Byte :=
  if n < 10 then Fin.ofNat (0x30 + n) else Fin.ofNat (0x61 + (n - 10))

/-- Table `htmlSafeSet` of `encoding/json`: the ASCII bytes written without
escaping when HTML escaping is on (the default of `json.Marshal`): all of
0x20..0x7F except the double quote, the backslash, `<`, `>` and `&`. -/
def htmlSafeSet (b : Nat) : Bool :=
  decide (0x20 ≤ b) && decide (b < 0x80) && !(b == 0x22) && !(b == 0x5C)
    && !(b == 0x3C) && !(b == 0x3E) && !(b == 0x26)

/-- The escape that `appendString` of `encoding/json` writes for an ASCII byte
outside `htmlSafeSet`. -/
def escapeByte (b : Byte) : List Byte :=
  if b.val = 0x5C ∨ b.val = 0x22 then [0x5C, b]
  else if b.val = 0x08 then [0x5C, 0x62]
  else if b.val = 0x0C then [0x5C, 0x66]
  else if b.val = 0x0A then [0x5C, 0x6E]
  else if b.val = 0x0D then [0x5C, 0x72]
  else if b.val = 0x09 then [0x5C, 0x74]
  else [0x5C, 0x75, 0x30, 0x30, hexDigit (b.val / 16), hexDigit (b.val % 16)]

/-- Loop of `appendString` of `encoding/json` (Go 1.22 and later), between the
two quotes.  The source copies the unescaped stretches `src[start:i]` lazily;
here every byte is written when it is passed, which gives the same output.
The bound on the iterations is the input length. -/
def appendStringLoop : Nat → List Byte → List Byte
  | 0, _ => []
  | _ + 1, [] => []
  | fuel + 1, b :: rest =>
    if b.val < 0x80 then
      (if htmlSafeSet b.val then [b] else escapeByte b) ++ appendStringLoop fuel rest
    else
      let d := DecodeRune (b :: rest)
      if d.1 = RuneError ∧ d.2 = 1 then
        [0x5C, 0x75, 0x66, 0x66, 0x66, 0x64] ++ appendStringLoop fuel rest
      else if d.1 = 0x2028 ∨ d.1 = 0x2029 then
        [0x5C, 0x75, 0x32, 0x30, 0x32, hexDigit (d.1 % 16)]
          ++ appendStringLoop fuel (rest.drop (d.2 - 1))
      else
        (b :: rest).take d.2 ++ appendStringLoop fuel (rest.drop (d.2 - 1))

/-- Go `appendString(dst, src, escapeHTML = true)`: a string as a JSON string
literal. -/
def appendString (src : GoString) : Bytes :=
  [0x22] ++ appendStringLoop src.length src ++ [0x22]

/-- One member `"NAME":"value"` of the encoded object. -/
def encodeMember (name : String) (v : GoString) : Bytes :=
  [0x22] ++ lit name ++ [0x22, 0x3A] ++ appendString v

/-- The bytes `json.Marshal` produces for a `DealerAsset`: the eight members in
declaration order, under their `json` tags, without insignificant space. -/
def encodeDealerAsset (a : DealerAsset) : Bytes :=
  [0x7B] ++ encodeMember "DEALERID" a.DEALERID
    ++ [0x2C] ++ encodeMember "MSISDN" a.MSISDN
    ++ [0x2C] ++ encodeMember "MPIN" a.MPIN
    ++ [0x2C] ++ encodeMember "BALANCE" a.BALANCE
    ++ [0x2C] ++ encodeMember "STATUS" a.STATUS
    ++ [0x2C] ++ encodeMember "TRANSAMOUNT" a.TRANSAMOUNT
    ++ [0x2C] ++ encodeMember "TRANSTYPE" a.TRANSTYPE
    ++ [0x2C] ++ encodeMember "REMARKS" a.REMARKS
    ++ [0x7D]

/-! ## `encoding/json`: decoding -/

/-- Value of a hexadecimal digit, as read by `getu4` of `encoding/json`. -/
def hexVal (c : Byte) : Option Nat :=
  if 0x30 ≤ c.val ∧ c.val ≤ 0x39 then some (c.val - 0x30)
  else if 0x61 ≤ c.val ∧ c.val ≤ 0x66 then some (c.val - 0x61 + 10)
  else if 0x41 ≤ c.val ∧ c.val ≤ 0x46 then some (c.val - 0x41 + 10)
  else none

/-- Go `getu4`: the rune of a leading `\uXXXX` escape; `none` stands for the
result `-1`. -/
def getu4 (s : List Byte) : Option Nat :=
  match s with
  | b0 :: b1 :: h1 :: h2 :: h3 :: h4 :: _ =>
    if b0.val = 0x5C ∧ b1.val = 0x75 then
      match hexVal h1, hexVal h2, hexVal h3, hexVal h4 with
      | some d1, some d2, some d3, some d4 => some (((d1 * 16 + d2) * 16 + d3) * 16 + d4)
      | _, _, _, _ => none
    else none
  | _ => none

/-- Go `utf16.IsSurrogate`. -/
def IsSurrogate (r : Nat) : Bool := decide (0xD800 ≤ r) && decide (r < 0xE000)

/-- Go `utf16.DecodeRune` on a high surrogate `r1` and the rune `r2` of a
following escape (`none` for `-1`): the combined rune, or U+FFFD when the two do
not form a valid pair. -/
def utf16DecodeRune (r1 : Nat) (r2 : Option Nat) : Nat :=
  match r2 with
  | some r2 =>
    if 0xD800 ≤ r1 ∧ r1 < 0xDC00 ∧ 0xDC00 ≤ r2 ∧ r2 < 0xE000 then
      (r1 - 0xD800) * 1024 + (r2 - 0xDC00) + 0x10000
    else 0xFFFD
  | none => 0xFFFD

/-- A JSON string literal read from just after its opening quote: the scan for
the closing quote (`stateInString` of the scanner, which rejects control bytes
and unknown escapes) together with `unquoteBytes`, which decodes the escapes and
coerces the text to valid UTF-8.  The result is the decoded string and the input
that follows the closing quote; `none` is a syntax error.  The source scans
first and unquotes the delimited literal afterwards; no escape or rune read here
can extend over the closing quote, so one pass gives the same result. -/
def unquoteLoop : Nat → List Byte → Option (GoString × List Byte)
  | 0, _ => none
  | _ + 1, [] => none
  | fuel + 1, c :: rest =>
    if c.val = 0x22 then some ([], rest)
    else if c.val = 0x5C then
      match rest with
      | [] => none
      | e :: rest1 =>
        let cont (out : List Byte) (r : List Byte) : Option (GoString × List Byte) :=
          (unquoteLoop fuel r).map (fun p => (out ++ p.1, p.2))
        if e.val = 0x22 ∨ e.val = 0x5C ∨ e.val = 0x2F then cont [e] rest1
        else if e.val = 0x62 then cont [0x08] rest1
        else if e.val = 0x66 then cont [0x0C] rest1
        else if e.val = 0x6E then cont [0x0A] rest1
        else if e.val = 0x72 then cont [0x0D] rest1
        else if e.val = 0x74 then cont [0x09] rest1
        else if e.val = 0x75 then
          match getu4 (c :: rest) with
          | none => none
          | some rr =>
            let r6 := rest1.drop 4
            if IsSurrogate rr then
              let dec := utf16DecodeRune rr (getu4 r6)
              if dec ≠ 0xFFFD then cont (EncodeRune dec) (r6.drop 6)
              else cont (EncodeRune 0xFFFD) r6
            else cont (EncodeRune rr) r6
        else none
    else if c.val < 0x20 then none
    else if c.val < 0x80 then
      (unquoteLoop fuel rest).map (fun p => (c :: p.1, p.2))
    else
      let d := DecodeRune (c :: rest)
      (unquoteLoop fuel (rest.drop (d.2 - 1))).map (fun p => (EncodeRune d.1 ++ p.1, p.2))

/-- The tokens of a JSON text made of one object with string members. -/
inductive Token where
  | lbrace
  | rbrace
  | colon
  | comma
  | str (s : GoString)
  deriving DecidableEq, Repr

/-- Go `isSpace` of the JSON scanner. -/
def isSpace (c : Byte) : Bool :=
  c.val == 0x20 || c.val == 0x09 || c.val == 0x0D || c.val == 0x0A

/-- The input as tokens, insignificant space skipped.  `none` is a syntax
error or a value other than a string or an object (numbers, literals and
arrays are outside the modelled fragment). -/
def tokens : Nat → List Byte → Option (List Token)
  | 0, s => if s.isEmpty then some [] else none
  | _ + 1, [] => some []
  | fuel + 1, c :: rest =>
    if isSpace c then tokens fuel rest
    else if c.val = 0x7B then (tokens fuel rest).map (fun ts => Token.lbrace :: ts)
    else if c.val = 0x7D then (tokens fuel rest).map (fun ts => Token.rbrace :: ts)
    else if c.val = 0x3A then (tokens fuel rest).map (fun ts => Token.colon :: ts)
    else if c.val = 0x2C then (tokens fuel rest).map (fun ts => Token.comma :: ts)
    else if c.val = 0x22 then
      match unquoteLoop (rest.length) rest with
      | some (s, rest1) => (tokens fuel rest1).map (fun ts => Token.str s :: ts)
      | none => none
    else none

/-- Assignment of a decoded member to the field whose `json` tag is the key.
Keys other than the eight tags (which `json.Unmarshal` matches by case folding
or skips) are outside the modelled fragment: `none`. -/
def setField (a : DealerAsset) (key value : GoString) : Option DealerAsset :=
  if key = lit "DEALERID" then some { a with DEALERID := value }
  else if key = lit "MSISDN" then some { a with MSISDN := value }
  else if key = lit "MPIN" then some { a with MPIN := value }
  else if key = lit "BALANCE" then some { a with BALANCE := value }
  else if key = lit "STATUS" then some { a with STATUS := value }
  else if key = lit "TRANSAMOUNT" then some { a with TRANSAMOUNT := value }
  else if key = lit "TRANSTYPE" then some { a with TRANSTYPE := value }
  else if key = lit "REMARKS" then some { a with REMARKS := value }
  else none

/-- The members of an object after its opening brace, assigned in input order
(a repeated key overwrites); the object must end the input. -/
def decodeMembers : List Token → DealerAsset → Option DealerAsset
  | Token.str k :: Token.colon :: Token.str v :: Token.comma :: ts, a =>
    match setField a k v with
    | some a1 => decodeMembers ts a1
    | none => none
  | [Token.str k, Token.colon, Token.str v, Token.rbrace], a => setField a k v
  | _, _ => none

/-- The zero value of `DealerAsset` (`var a DealerAsset`). -/
def DealerAsset.zero : DealerAsset := ⟨[], [], [], [], [], [], [], []⟩

/-- The record a JSON text decodes to. -/
def decodeDealerAsset (data : Bytes) : Option DealerAsset :=
  match tokens data.length data with
  | some [Token.lbrace, Token.rbrace] => some DealerAsset.zero
  | some (Token.lbrace :: ts) => decodeMembers ts DealerAsset.zero
  | _ => none

namespace json

/-- Go `json.Marshal` at type `DealerAsset`.  A struct of strings has no value
that `json.Marshal` rejects, so the error result never occurs. -/
def Marshal (a : DealerAsset) : Except GoString Bytes := .ok (encodeDealerAsset a)

/-- Go `json.Unmarshal(data, &a)` into a zero `DealerAsset`, on the fragment of
JSON formed by the objects whose keys are `json` tags of the struct and whose
values are strings: `some a` is the decoded record, `none` is an error of
`json.Unmarshal` or an input outside that fragment.  Every output of
`json.Marshal` at `DealerAsset` lies in the fragment. -/
def Unmarshal (data : Bytes) : Option DealerAsset := decodeDealerAsset data

end json

/-! ## The chaincode stub -/

/-- The protobuf `timestamp.Timestamp`: seconds (`int64`) and nanoseconds
(`int32`) since the epoch. -/
structure Timestamp where
  Seconds : Int
  Nanos : Int
  deriving DecidableEq, Repr

/-- The `queryresult.KeyModification` a history iterator yields. -/
structure KeyModification where
  TxId : GoString
  Value : Bytes
  Timestamp : Timestamp
  IsDelete : Bool
  deriving DecidableEq, Repr

/-- One entry of the history ledger: the modification and the commit sequence
it was appended with. -/
structure HistoryEntry where
  seq : Nat
  mod : KeyModification
  deriving DecidableEq, Repr

/-- A call made on the stub, with its arguments. -/
inductive Call where
  | GetState (key : GoString)
  | PutState (key : GoString) (value : Bytes)
  | GetHistoryForKey (key : GoString)
  | SetEvent (name : GoString) (payload : Bytes)
  deriving DecidableEq, Repr

/-- The errors of the platform under the stub.  Each primitive answers `none`
when it works and `some msg` when it fails with the Go error whose text is
`msg`; `next key i` is the error of the `i`-th `Next()` of a history iterator
of `key`.  Modelled from the spec: the store is keyed by the record id as a
UTF-8 string, and the `PutState` of the platform refuses the empty key, so a
write is accepted only under a key that is not empty and is valid UTF-8
(`putState_key`). -/
structure Faults where
  getState : GoString → Option GoString
  putState : GoString → Bytes → Option GoString
  getHistoryForKey : GoString → Option GoString
  next : GoString → Nat → Option GoString
  setEvent : GoString → Bytes → Option GoString
  putState_key : ∀ key value, putState key value = Option.none →
    key ≠ [] ∧ ValidString key = true

/-- The platform without storage faults: `PutState` refuses only the keys that
no platform accepts, the empty key and the keys that are not valid UTF-8. -/
def Faults.none : Faults where
  getState := fun _ => Option.none
  putState := fun key _ =>
    if key = [] then some (lit "key must not be an empty string")
    else if ValidString key = true then Option.none
    else some (lit "key must be a valid UTF-8 string")
  getHistoryForKey := fun _ => Option.none
  next := fun _ _ => Option.none
  setEvent := fun _ _ => Option.none
  putState_key := by
    intro key value h
    by_cases h1 : key = []
    · simp [h1] at h
    · by_cases h2 : ValidString key = true
      · exact ⟨h1, h2⟩
      · simp [h1, h2] at h

/-- Modelled from the spec: the implementation behind
`shim.ChaincodeStubInterface` (the Record Store, the History Ledger and the
event emission of the ledger platform) is not part of the repository.  The
stub is the state the handlers see and change: the invocation
(`function`, `args`, transaction id and timestamp), the store
(`get(key) -> bytes|absent`), the per-key append-only history, the events
emitted so far, the calls made so far, and the faults of the platform. -/
structure Stub where
  function : GoString
  args : List GoString
  txID : GoString
  txTimestamp : Timestamp
  state : GoString → Option Bytes
  history : GoString → List HistoryEntry
  events : List (GoString × Bytes)
  calls : List Call
  faults : Faults

namespace Stub

/-- Modelled from the spec: `get(id) -> Record | absent`, which never fails for
a missing key and fails only on a storage fault. -/
def GetState (s : Stub) (key : GoString) : Except GoString (Option Bytes) × Stub :=
  let s1 := { s with calls := s.calls ++ [Call.GetState key] }
  match s.faults.getState key with
  | some err => (.error err, s1)
  | none => (.ok (s.state key), s1)

/-- Modelled from the spec: `put(id, serializedRecord)`, an unconditional
overwrite that fails only when the platform refuses the write (a storage fault,
or a key that is empty or not valid UTF-8), together with the `append` of the
History Ledger: every successful write appends one entry to the history of the
key, with the next commit sequence of that key, the id and the time of the
running transaction, and no deletion mark.  The result is the error, if any.
The write is made on the store as the running invocation sees it; it stays only
if the invocation answers a success (`Stub.respond`). -/
def PutState (s : Stub) (key : GoString) (value : Bytes) : Option GoString × Stub :=
  let s1 := { s with calls := s.calls ++ [Call.PutState key value] }
  match s.faults.putState key value with
  | some err => (some err, s1)
  | none =>
    let entry : HistoryEntry :=
      ⟨(s.history key).length, ⟨s.txID, value, s.txTimestamp, false⟩⟩
    (none,
      { s1 with
        state := fun k => if k = key then some value else s.state k
        history := fun k => if k = key then s.history k ++ [entry] else s.history k })

/-- Modelled from the spec: `emit(eventName, payload)`; the result is the
error, if any. -/
def SetEvent (s : Stub) (name : GoString) (payload : Bytes) : Option GoString × Stub :=
  let s1 := { s with calls := s.calls ++ [Call.SetEvent name payload] }
  match s.faults.setEvent name payload with
  | some err => (some err, s1)
  | none => (none, { s1 with events := s.events ++ [(name, payload)] })

/-- The results of the successive `Next()` calls of a history iterator over
`entries`, the first of them being the `i`-th call. -/
def iterate (fault : Nat → Option GoString) : Nat → List HistoryEntry →
    List (Except GoString KeyModification)
  | _, [] => []
  | i, e :: rest =>
    (match fault i with
      | some err => Except.error err
      | none => Except.ok e.mod) :: iterate fault (i + 1) rest

/-- Modelled from the spec: `historyIterator(key)`, a finite forward-ordered
sequence, oldest first, empty for a key that never existed.  The iterator is
given as the list of the results of its `Next()` calls; `HasNext()` holds while
the list is not exhausted. -/
def GetHistoryForKey (s : Stub) (key : GoString) :
    Except GoString (List (Except GoString KeyModification)) × Stub :=
  let s1 := { s with calls := s.calls ++ [Call.GetHistoryForKey key] }
  match s.faults.getHistoryForKey key with
  | some err => (.error err, s1)
  | none => (.ok (iterate (s.faults.next key) 0 (s.history key)), s1)

end Stub

/-! ## Responses -/

/-- The protobuf `peer.Response`. -/
structure Response where
  Status : Int
  Message : GoString
  Payload : Bytes
  deriving DecidableEq, Repr

namespace shim

/-- Status code `shim.OK`. -/
def OK : Int := 200

/-- Status code `shim.ERROR`. -/
def ERROR : Int := 500

/-- Go `shim.Success`. -/
def Success (payload : Bytes) : Response := ⟨OK, [], payload⟩

/-- Go `shim.Error`. -/
def Error (msg : GoString) : Response := ⟨ERROR, msg, []⟩

end shim

/-- Modelled from the spec: the return of the response of an invocation to the
platform, which runs each operation as one atomic unit.  `entry` is the stub
at the start of the invocation.  When the response is a success (a status below
`shim.ERRORTHRESHOLD`, 400) the writes, the history entries and the events of the
invocation stay; when it is an error they are dropped, and the store, the
histories and the events are those of `entry`.  The calls made stay recorded. -/
def Stub.respond (entry : Stub) (r : Response × Stub) : Response × Stub :=
  if r.1.Status < 400 then r
  else (r.1, { r.2 with state := entry.state, history := entry.history, events := entry.events })

/-! ## The handlers of `d_asset.go` -/

/-- Go `createAsset`.  The test `len(args) != 8` is the last case of the match
on the argument list; `assetBytes != nil` is the case `some` of the result of
`GetState`; the response the function returns goes to the platform
(`Stub.respond`). -/
def createAsset (stub : Stub) (args : List GoString) : Response × Stub :=
  Stub.respond stub <|
  match args with
  | [a0, a1, a2, a3, a4, a5, a6, a7] =>
    -- Check if the asset already exists
    match stub.GetState a0 with
    | (.error err, stub) => (shim.Error (lit "Failed to get asset: " ++ err), stub)
    | (.ok (some _), stub) => (shim.Error (lit "This asset already exists: " ++ a0), stub)
    | (.ok none, stub) =>
      let asset : DealerAsset := ⟨a0, a1, a2, a3, a4, a5, a6, a7⟩
      match json.Marshal asset with
      | .error err => (shim.Error err, stub)
      | .ok assetJSON =>
        match stub.PutState asset.DEALERID assetJSON with
        | (some err, stub) => (shim.Error err, stub)
        | (none, stub) =>
          match stub.SetEvent (lit "AssetCreated") asset.DEALERID with
          | (some err, stub) => (shim.Error err, stub)
          | (none, stub) => (shim.Success [], stub)
  | _ => (shim.Error (lit "Incorrect number of arguments. Expecting 8"), stub)

/-- Go `updateAsset`.  The test `len(args) != 8` is the last case of the match
on the argument list; the response the function returns goes to the platform
(`Stub.respond`). -/
def updateAsset (stub : Stub) (args : List GoString) : Response × Stub :=
  Stub.respond stub <|
  match args with
  | [a0, a1, a2, a3, a4, a5, a6, a7] =>
    let asset : DealerAsset := ⟨a0, a1, a2, a3, a4, a5, a6, a7⟩
    match json.Marshal asset with
    | .error err => (shim.Error err, stub)
    | .ok assetJSON =>
      match stub.PutState asset.DEALERID assetJSON with
      | (some err, stub) => (shim.Error err, stub)
      | (none, stub) => (shim.Success [], stub)
  | _ => (shim.Error (lit "Incorrect number of arguments. Expecting 8"), stub)

/-- Go `queryAsset`.  The test `len(args) != 1` is the last case of the match on
the argument list; `assetJSON == nil` is the case `none` of the result of
`GetState`.  The function makes no write and emits no event, so the return of
its response to the platform leaves the stub as the function left it. -/
def queryAsset (stub : Stub) (args : List GoString) : Response × Stub :=
  match args with
  | [a0] =>
    match stub.GetState a0 with
    | (.error err, stub) => (shim.Error err, stub)
    | (.ok none, stub) => (shim.Error (lit "Asset not found"), stub)
    | (.ok (some assetJSON), stub) => (shim.Success assetJSON, stub)
  | _ => (shim.Error (lit "Incorrect number of arguments. Expecting 1"), stub)

/-- Go `strconv.FormatBool`. -/
def FormatBool (b : Bool) : GoString := if b then lit "true" else lit "false"

/-- What one iteration of the loop of `getAssetHistory` writes to the buffer
after the separating comma: the object of one `KeyModification`.  `timeString
sec nsec` stands for `time.Unix(sec, nsec).String()`, which depends on the local
time zone of the process. -/
def writeEntry (timeString : Int → Int → GoString) (response : KeyModification) : Bytes :=
  lit "\x7b\"TxId\":" ++ lit "\"" ++ response.TxId ++ lit "\""
    ++ lit ", \"Value\":"
    ++ (if response.IsDelete then lit "null" else response.Value)
    ++ lit ", \"Timestamp\":" ++ lit "\""
    ++ timeString response.Timestamp.Seconds response.Timestamp.Nanos ++ lit "\""
    ++ lit ", \"IsDelete\":" ++ lit "\"" ++ FormatBool response.IsDelete ++ lit "\"\x7d"

/-- The loop `for resultsIterator.HasNext()` of `getAssetHistory`, on the
results of the `Next()` calls, with the buffer and the flag
`bArrayMemberAlreadyWritten` as they stand.  The result is the error of a
failed `Next()` or the buffer at the end of the loop. -/
def historyLoop (timeString : Int → Int → GoString) :
    List (Except GoString KeyModification) → Bytes → Bool → Except GoString Bytes
  | [], buffer, _ => .ok buffer
  | .error err :: _, _, _ => .error err
  | .ok response :: rest, buffer, bArrayMemberAlreadyWritten =>
    let buffer := if bArrayMemberAlreadyWritten = true then buffer ++ lit "," else buffer
    historyLoop timeString rest (buffer ++ writeEntry timeString response) true

/-- Go `getAssetHistory`.  The test `len(args) != 1` is the last case of the
match on the argument list; the deferred `resultsIterator.Close()` has no effect
on the response or on the ledger.  The function makes no write and emits no
event, so the return of its response to the platform leaves the stub as the
function left it. -/
def getAssetHistory (timeString : Int → Int → GoString) (stub : Stub)
    (args : List GoString) : Response × Stub :=
  match args with
  | [a0] =>
    match stub.GetHistoryForKey a0 with
    | (.error err, stub) => (shim.Error err, stub)
    | (.ok resultsIterator, stub) =>
      match historyLoop timeString resultsIterator (lit "[") false with
      | .error err => (shim.Error err, stub)
      | .ok buffer => (shim.Success (buffer ++ lit "]"), stub)
  | _ => (shim.Error (lit "Incorrect number of arguments. Expecting 1"), stub)

/-- Go `(t *SimpleChaincode) Invoke`; `stub.GetFunctionAndParameters()` gives
the fields `function` and `args` of the stub. -/
def Invoke (timeString : Int → Int → GoString) (stub : Stub) : Response × Stub :=
  let function := stub.function
  let args := stub.args
  if args.length < 1 then (shim.Error (lit "Invalid number of arguments"), stub)
  else if function = lit "createAsset" then createAsset stub args
  else if function = lit "updateAsset" then updateAsset stub args
  else if function = lit "queryAsset" then queryAsset stub args
  else if function = lit "getAssetHistory" then getAssetHistory timeString stub args
  else (shim.Error (lit "Invalid function name"), stub)

/-! ## The HTTP handler of `api.go` -/

/-- Go `type Asset struct` of `api.go`; `Value` is a Go `int`. -/
structure Asset where
  ID : GoString
  Name : GoString
  Value : Int

/-- Go `fmt.Sprintf("%d", v)`: the decimal rendering of an integer. -/
def formatInt (v : Int) : GoString := lit (toString v)

/-- What a handler of `api.go` answers with `c.JSON(status, gin.H{key: text})`. -/
structure HTTPResponse where
  status : Nat
  key : GoString
  text : GoString
  deriving DecidableEq, Repr

namespace api

/-- Go `createAsset` of `api.go`, from the point where the body is bound to
`asset` and the gateway, the network and the contract are obtained.  `submit`
stands for `contract.SubmitTransaction`, whose result is the payload or the
error. -/
def createAsset (submit : GoString → List GoString → Except GoString Bytes) (asset : Asset) :
    HTTPResponse :=
  match submit (lit "CreateAsset") [asset.ID, asset.Name, formatInt asset.Value] with
  | .error err => ⟨500, lit "error", err⟩
  | .ok _ => ⟨200, lit "message", lit "Asset created successfully"⟩

end api

/-- Modelled from the spec: a transaction submitted to the chaincode reaches the
invocation dispatch, that is `Invoke` on a stub whose function name and
arguments are those of the transaction. -/
def dispatch (timeString : Int → Int → GoString) (stub : Stub) (name : GoString)
    (args : List GoString) : Response × Stub :=
  Invoke timeString { stub with function := name, args := args }

/-- Modelled from the spec: the result or the error of the dispatch as relayed
to the submitter; a response whose status is below `shim.ERRORTHRESHOLD` (400)
is a result, any other an error with the message of the response. -/
def relay (r : Response) : Except GoString Bytes :=
  if r.Status < 400 then .ok r.Payload else .error r.Message

/-- The `contract.SubmitTransaction` of a gateway whose contract is this
chaincode, on the ledger of `stub`: the relayed result of the dispatch. -/
def submitTo (timeString : Int → Int → GoString) (stub : Stub) (name : GoString)
    (args : List GoString) : Except GoString Bytes :=
  relay (dispatch timeString stub name args).1

/-! ## Notions used to state the properties -/

/-- The record whose fields are those of `a` coerced to valid UTF-8. -/
def DealerAsset.coerce (a : DealerAsset) : DealerAsset :=
  ⟨coerceUTF8 a.DEALERID, coerceUTF8 a.MSISDN, coerceUTF8 a.MPIN, coerceUTF8 a.BALANCE,
    coerceUTF8 a.STATUS, coerceUTF8 a.TRANSAMOUNT, coerceUTF8 a.TRANSTYPE,
    coerceUTF8 a.REMARKS⟩

/-- Every field of the record is valid UTF-8. -/
def DealerAsset.Valid (a : DealerAsset) : Bool :=
  ValidString a.DEALERID && ValidString a.MSISDN && ValidString a.MPIN
    && ValidString a.BALANCE && ValidString a.STATUS && ValidString a.TRANSAMOUNT
    && ValidString a.TRANSTYPE && ValidString a.REMARKS

/-- The record that `createAsset` and `updateAsset` build from a list of eight
arguments: its fields are `args[0]` to `args[7]`, in order. -/
def assetOf (args : List GoString) : DealerAsset :=
  ⟨args.getD 0 [], args.getD 1 [], args.getD 2 [], args.getD 3 [], args.getD 4 [],
    args.getD 5 [], args.getD 6 [], args.getD 7 []⟩

/-- The argument list that carries the fields of a record, in order. -/
def DealerAsset.args (a : DealerAsset) : List GoString :=
  [a.DEALERID, a.MSISDN, a.MPIN, a.BALANCE, a.STATUS, a.TRANSAMOUNT, a.TRANSTYPE, a.REMARKS]

/-- Serialization followed by deserialization. -/
def roundTrip (a : DealerAsset) : Option DealerAsset :=
  match json.Marshal a with
  | .ok data => json.Unmarshal data
  | .error _ => none

/-- The modifications of a list of history entries, in order. -/
def mods (h : List HistoryEntry) : List KeyModification := h.map HistoryEntry.mod

/-- The rendering of one history entry as the specification words it: the
object with the members `TxId`, `Value`, `Timestamp` and `IsDelete`, where
`Value` is the literal `null` for a deletion and the raw stored bytes
otherwise, and `IsDelete` is the quoted string `"true"` or `"false"`. -/
def specEntry (timeString : Int → Int → GoString) (e : KeyModification) : Bytes :=
  lit "\x7b\"TxId\":\"" ++ e.TxId
    ++ lit "\", \"Value\":" ++ (if e.IsDelete then lit "null" else e.Value)
    ++ lit ", \"Timestamp\":\"" ++ timeString e.Timestamp.Seconds e.Timestamp.Nanos
    ++ lit "\", \"IsDelete\":\"" ++ (if e.IsDelete then lit "true" else lit "false")
    ++ lit "\"\x7d"

/-- The rendering of a history as the specification words it: a JSON array of
the renderings of the entries, in order, separated by single commas. -/
def specHistory (timeString : Int → Int → GoString) (h : List KeyModification) : Bytes :=
  lit "[" ++ List.intercalate (lit ",") (h.map (specEntry timeString)) ++ lit "]"

/-- One write to a fixed id: a `createAsset` or an `updateAsset` call with the
seven fields after the id, made in a transaction with its own id and time. -/
structure Write where
  create : Bool
  MSISDN : GoString
  MPIN : GoString
  BALANCE : GoString
  STATUS : GoString
  TRANSAMOUNT : GoString
  TRANSTYPE : GoString
  REMARKS : GoString
  txID : GoString
  txTimestamp : Timestamp

/-- The record a write to `id` carries. -/
def Write.asset (id : GoString) (w : Write) : DealerAsset :=
  ⟨id, w.MSISDN, w.MPIN, w.BALANCE, w.STATUS, w.TRANSAMOUNT, w.TRANSTYPE, w.REMARKS⟩

/-- The argument list of a write to `id`. -/
def Write.args (id : GoString) (w : Write) : List GoString :=
  [id, w.MSISDN, w.MPIN, w.BALANCE, w.STATUS, w.TRANSAMOUNT, w.TRANSTYPE, w.REMARKS]

/-- The call of one write to `id`, in its transaction. -/
def runWrite (stub : Stub) (id : GoString) (w : Write) : Response × Stub :=
  let stub := { stub with txID := w.txID, txTimestamp := w.txTimestamp }
  if w.create then createAsset stub (w.args id) else updateAsset stub (w.args id)

/-- The successive calls of a list of writes to `id`: the responses, in call
order, and the final stub. -/
def runWrites (stub : Stub) (id : GoString) : List Write → List Response × Stub
  | [] => ([], stub)
  | w :: ws =>
    let r := runWrite stub id w
    let rs := runWrites r.2 id ws
    (r.1 :: rs.1, rs.2)

/-- The history entries that the writes `ws` to `id` are to leave, the first of
them with commit sequence `start`. -/
def expectedHistory (id : GoString) : Nat → List Write → List HistoryEntry
  | _, [] => []
  | start, w :: ws =>
    ⟨start, ⟨w.txID, encodeDealerAsset (w.asset id), w.txTimestamp, false⟩⟩
      :: expectedHistory id (start + 1) ws

/-- One call of `createAsset` or `updateAsset` with any argument list, made in a
transaction with its own id and time. -/
structure Op where
  create : Bool
  args : List GoString
  txID : GoString
  txTimestamp : Timestamp

/-- The call of one operation, in its transaction. -/
def runOp (stub : Stub) (op : Op) : Response × Stub :=
  let stub := { stub with txID := op.txID, txTimestamp := op.txTimestamp }
  if op.create then createAsset stub op.args else updateAsset stub op.args

/-- The stub after the successive calls of a list of operations. -/
def runOps (stub : Stub) : List Op → Stub
  | [] => stub
  | op :: ops => runOps (runOp stub op).2 ops

/-- The `DEALERID` of the record a stored value deserializes to. -/
def storedId (v : Bytes) : Option GoString := (json.Unmarshal v).map DealerAsset.DEALERID

/-! ## Sample inputs -/

/-- A stub over the empty ledger, without faults. -/
def emptyStub : Stub :=
  ⟨[], [], lit "tx0", ⟨0, 0⟩, fun _ => none, fun _ => [], [], [], Faults.none⟩

/-- A rendering of times for the samples: the same text for every time. -/
def sampleTime (_sec _nsec : Int) : GoString := lit "1970-01-01 00:00:00 +0000 UTC"

/-- The record of the example of the specification. -/
def sampleAsset : DealerAsset :=
  ⟨lit "D1", lit "999...1", lit "1234", lit "1000", lit "ACTIVE", lit "0", lit "NA",
    lit "first"⟩

/-- A record whose second field is the single byte 0xFF, which is not valid
UTF-8. -/
def badAsset : DealerAsset :=
  ⟨lit "D1", [0xFF], lit "1234", lit "1000", lit "ACTIVE", lit "0", lit "NA", lit "first"⟩

/-- The record `badAsset` after the coercion of its fields to valid UTF-8. -/
def badAssetCoerced : DealerAsset :=
  ⟨lit "D1", [0xEF, 0xBF, 0xBD], lit "1234", lit "1000", lit "ACTIVE", lit "0", lit "NA",
    lit "first"⟩

/-- A record that differs from `badAsset` in its second field, the single byte
0xFE, also not valid UTF-8. -/
def badAssetTwin : DealerAsset :=
  ⟨lit "D1", [0xFE], lit "1234", lit "1000", lit "ACTIVE", lit "0", lit "NA", lit "first"⟩

/-- An invocation of a function the chaincode does not have, without
arguments. -/
def unknownCall : Stub := { emptyStub with function := lit "deleteAsset" }

/-- An invocation of a function the chaincode does not have, with one
argument. -/
def unknownCallOne : Stub :=
  { emptyStub with function := lit "deleteAsset", args := [lit "D1"] }

/-- An invocation of `queryAsset` with two arguments. -/
def queryTwoCall : Stub :=
  { emptyStub with function := lit "queryAsset", args := [lit "D1", lit "D2"] }

/-- A creation of the sample record. -/
def sampleCreate : Write :=
  ⟨true, lit "999...1", lit "1234", lit "1000", lit "ACTIVE", lit "0", lit "NA", lit "first",
    lit "tx1", ⟨100, 0⟩⟩

/-- An update of the sample record. -/
def sampleUpdate : Write :=
  ⟨false, lit "999...1", lit "1234", lit "900", lit "ACTIVE", lit "100", lit "DEBIT",
    lit "second", lit "tx2", ⟨200, 0⟩⟩

/-- A creation of a record whose second field is the byte 0xFF. -/
def badCreate : Write :=
  ⟨true, [0xFF], lit "1234", lit "1000", lit "ACTIVE", lit "0", lit "NA", lit "first",
    lit "tx1", ⟨100, 0⟩⟩

/-- A stub over the empty ledger on a platform where the emission of an event
fails. -/
def eventFaultStub : Stub :=
  { emptyStub with
    faults := { Faults.none with setEvent := fun _ _ => some (lit "event failure") } }

/-- The sample record with the empty string as its id. -/
def emptyIdAsset : DealerAsset :=
  ⟨[], lit "999...1", lit "1234", lit "1000", lit "ACTIVE", lit "0", lit "NA", lit "first"⟩

/-- A body of `POST /createAsset`. -/
def sampleBody : Asset := ⟨lit "A1", lit "car", 5⟩

/-- A creation of the sample record followed by an update of it. -/
def sampleOps : List Op :=
  [⟨true, sampleAsset.args, lit "tx1", ⟨100, 0⟩⟩, ⟨false, sampleAsset.args, lit "tx2", ⟨200, 0⟩⟩]

/-- A stub whose store holds the bytes `x` under the key `D1`. -/
def storedStub : Stub :=
  { emptyStub with state := fun k => if k = lit "D1" then some (lit "x") else none }

/-! ## Lemmas on the codecs and the handlers -/

theorem val_ofNat (n : Nat) : ((Fin.ofNat n : Byte)).val = n % 256 := rfl

theorem hexVal_hexDigit (n : Nat) (h : n < 16) : hexVal (hexDigit n) = some n := by
  unfold hexDigit hexVal
  split_ifs <;> simp_all [val_ofNat] <;> omega

theorem seqSize_cases (n : Nat) : seqSize n = 2 ∧ n < 0xE0 ∨ seqSize n = 3 ∧ 0xE0 ≤ n ∧ n < 0xF0
    ∨ seqSize n = 4 ∧ 0xF0 ≤ n := by
  unfold seqSize; split_ifs <;> omega

theorem acceptLo_ge (n : Nat) : 0x80 ≤ acceptLo n ∧ (n = 0xE0 → acceptLo n = 0xA0)
    ∧ (n = 0xF0 → acceptLo n = 0x90) := by
  unfold acceptLo; split_ifs <;> omega

theorem acceptHi_le (n : Nat) : acceptHi n ≤ 0xBF ∧ (n = 0xED → acceptHi n = 0x9F)
    ∧ (n = 0xF4 → acceptHi n = 0x8F) := by
  unfold acceptHi; split_ifs <;> omega

/-- The results of `DecodeRune` on an input that starts with a byte of 0x80 or
more: an error of width 1, or a rune of width 2, 3 or 4 whose bytes lie in the
accepted ranges. -/
theorem DecodeRune_spec (b : Byte) (rest : List Byte) (hb : 0x80 ≤ b.val) :
    DecodeRune (b :: rest) = (RuneError, 1)
    ∨ (∃ s1 t, rest = s1 :: t ∧ 0xC2 ≤ b.val ∧ b.val < 0xE0 ∧ 0x80 ≤ s1.val ∧ s1.val ≤ 0xBF
        ∧ ∀ x, DecodeRune (b :: s1 :: x) = ((b.val % 32) * 64 + s1.val % 64, 2))
    ∨ (∃ s1 s2 t, rest = s1 :: s2 :: t ∧ 0xE0 ≤ b.val ∧ b.val < 0xF0
        ∧ acceptLo b.val ≤ s1.val ∧ s1.val ≤ acceptHi b.val ∧ 0x80 ≤ s2.val ∧ s2.val ≤ 0xBF
        ∧ ∀ x, DecodeRune (b :: s1 :: s2 :: x) = ((b.val % 16) * 4096 + (s1.val % 64) * 64 + s2.val % 64, 3))
    ∨ (∃ s1 s2 s3 t, rest = s1 :: s2 :: s3 :: t ∧ 0xF0 ≤ b.val ∧ b.val ≤ 0xF4
        ∧ acceptLo b.val ≤ s1.val ∧ s1.val ≤ acceptHi b.val ∧ 0x80 ≤ s2.val ∧ s2.val ≤ 0xBF
        ∧ 0x80 ≤ s3.val ∧ s3.val ≤ 0xBF
        ∧ ∀ x, DecodeRune (b :: s1 :: s2 :: s3 :: x) = ((b.val % 8) * 262144
            + (s1.val % 64) * 4096 + (s2.val % 64) * 64 + s3.val % 64, 4)) := by
  have h80 : ¬ b.val < 0x80 := by omega
  by_cases h1 : b.val < 0xC2 ∨ 0xF4 < b.val
  · left; simp [DecodeRune, h80, h1]
  have hlo := acceptLo_ge b.val
  have hhi := acceptHi_le b.val
  rcases seqSize_cases b.val with ⟨hsz, hr⟩ | ⟨hsz, hr⟩ | ⟨hsz, hr⟩
  · rcases rest with _ | ⟨s1, t⟩
    · left; simp [DecodeRune, h80, h1, hsz]
    · by_cases h2 : s1.val < acceptLo b.val ∨ acceptHi b.val < s1.val
      · left; simp [DecodeRune, h80, h1, hsz, h2]
      · right; left
        refine ⟨s1, t, rfl, by omega, by omega, by omega, by omega, ?_⟩
        intro x
        simp [DecodeRune, h80, h1, hsz, h2]
  · rcases rest with _ | ⟨s1, _ | ⟨s2, t⟩⟩
    · left; simp [DecodeRune, h80, h1, hsz]
    · left; simp [DecodeRune, h80, h1, hsz]
    · by_cases h2 : s1.val < acceptLo b.val ∨ acceptHi b.val < s1.val
      · left; simp [DecodeRune, h80, h1, hsz, h2]
      by_cases h3 : s2.val < 0x80 ∨ 0xBF < s2.val
      · left; simp [DecodeRune, h80, h1, hsz, h2, h3]
      right; right; left
      refine ⟨s1, s2, t, rfl, by omega, by omega, by omega, by omega, by omega, by omega, ?_⟩
      intro x
      simp [DecodeRune, h80, h1, hsz, h2, h3]
  · rcases rest with _ | ⟨s1, _ | ⟨s2, _ | ⟨s3, t⟩⟩⟩
    · left; simp [DecodeRune, h80, h1, hsz]
    · left; simp [DecodeRune, h80, h1, hsz]
    · left; simp [DecodeRune, h80, h1, hsz]
    · by_cases h2 : s1.val < acceptLo b.val ∨ acceptHi b.val < s1.val
      · left; simp [DecodeRune, h80, h1, hsz, h2]
      by_cases h3 : s2.val < 0x80 ∨ 0xBF < s2.val
      · left; simp [DecodeRune, h80, h1, hsz, h2, h3]
      by_cases h4 : s3.val < 0x80 ∨ 0xBF < s3.val
      · left; simp [DecodeRune, h80, h1, hsz, h2, h3, h4]
      right; right; right
      refine ⟨s1, s2, s3, t, rfl, by omega, by omega, by omega, by omega, by omega, by omega,
        by omega, by omega, ?_⟩
      intro x
      simp [DecodeRune, h80, h1, hsz, h2, h3, h4]

theorem byte_eq (n : Nat) (b : Byte) (h : n = b.val) : (Fin.ofNat n : Byte) = b := by
  apply Fin.ext
  rw [val_ofNat, h]
  exact Nat.mod_eq_of_lt b.isLt

/-- A multi-byte encoding that `DecodeRune` accepts is the encoding
`EncodeRune` gives for the decoded rune, and is decoded the same way whatever
follows it. -/
theorem DecodeRune_multi (b : Byte) (rest : List Byte) (hb : 0x80 ≤ b.val)
    (h : DecodeRune (b :: rest) ≠ (RuneError, 1)) :
    ∃ pre suf, rest = pre ++ suf ∧ (DecodeRune (b :: rest)).2 = pre.length + 1
      ∧ 1 ≤ pre.length
      ∧ EncodeRune (DecodeRune (b :: rest)).1 = b :: pre
      ∧ ∀ x, DecodeRune (b :: (pre ++ x)) = DecodeRune (b :: rest) := by
  have hlo := acceptLo_ge b.val
  have hhi := acceptHi_le b.val
  rcases DecodeRune_spec b rest hb with h0 | ⟨s1, t, rfl, h1, h2, h3, h4, hd⟩
    | ⟨s1, s2, t, rfl, h1, h2, h3, h4, h5, h6, hd⟩
    | ⟨s1, s2, s3, t, rfl, h1, h2, h3, h4, h5, h6, h7, h8, hd⟩
  · exact absurd h0 h
  · refine ⟨[s1], t, rfl, by simp [hd], by simp, ?_, ?_⟩
    · rw [hd]
      have e1 : ¬ (b.val % 32 * 64 + s1.val % 64 ≤ 0x7F) := by omega
      have e2 : b.val % 32 * 64 + s1.val % 64 ≤ 0x7FF := by omega
      simp only [EncodeRune, if_neg e1, if_pos e2]
      rw [byte_eq _ b (by omega), byte_eq _ s1 (by omega)]
    · intro x
      simp only [List.singleton_append, hd]
  · refine ⟨[s1, s2], t, rfl, by simp [hd], by simp, ?_, ?_⟩
    · rw [hd]
      have e1 : ¬ (b.val % 16 * 4096 + s1.val % 64 * 64 + s2.val % 64 ≤ 0x7F) := by omega
      have e2 : ¬ (b.val % 16 * 4096 + s1.val % 64 * 64 + s2.val % 64 ≤ 0x7FF) := by omega
      have e3 : ¬ (0x10FFFF < b.val % 16 * 4096 + s1.val % 64 * 64 + s2.val % 64
          ∨ (0xD800 ≤ b.val % 16 * 4096 + s1.val % 64 * 64 + s2.val % 64
            ∧ b.val % 16 * 4096 + s1.val % 64 * 64 + s2.val % 64 ≤ 0xDFFF)) := by omega
      have e4 : b.val % 16 * 4096 + s1.val % 64 * 64 + s2.val % 64 ≤ 0xFFFF := by omega
      simp only [EncodeRune, if_neg e1, if_neg e2, if_neg e3, if_pos e4]
      rw [byte_eq _ b (by omega), byte_eq _ s1 (by omega), byte_eq _ s2 (by omega)]
    · intro x
      simp only [List.cons_append, List.nil_append, hd]
  · refine ⟨[s1, s2, s3], t, rfl, by simp [hd], by simp, ?_, ?_⟩
    · rw [hd]
      generalize hr : b.val % 8 * 262144 + s1.val % 64 * 4096 + s2.val % 64 * 64
        + s3.val % 64 = r
      have e1 : ¬ (r ≤ 0x7F) := by omega
      have e2 : ¬ (r ≤ 0x7FF) := by omega
      have e3 : ¬ (0x10FFFF < r ∨ (0xD800 ≤ r ∧ r ≤ 0xDFFF)) := by omega
      have e4 : ¬ (r ≤ 0xFFFF) := by omega
      simp only [EncodeRune, if_neg e1, if_neg e2, if_neg e3, if_neg e4]
      rw [byte_eq _ b (by omega), byte_eq _ s1 (by omega), byte_eq _ s2 (by omega),
        byte_eq _ s3 (by omega)]
    · intro x
      simp only [List.cons_append, List.nil_append, hd]

theorem unquote_safe (k : Nat) (b : Byte) (r : List Byte) (hs : htmlSafeSet b.val = true) :
    unquoteLoop (k + 1) (b :: r) = (unquoteLoop k r).map (fun p => (b :: p.1, p.2)) := by
  simp only [htmlSafeSet, Bool.and_eq_true, decide_eq_true_eq, Bool.not_eq_true',
    beq_eq_false_iff_ne, ne_eq] at hs
  obtain ⟨⟨⟨⟨⟨⟨h1, h2⟩, h3⟩, h4⟩, h5⟩, h6⟩, h7⟩ := hs
  have a1 : ¬ b.val < 0x20 := by omega
  simp only [unquoteLoop, if_neg h3, if_neg h4, if_neg a1, if_pos h2]

theorem v5C : ((0x5C : Byte) : Nat) = 0x5C := rfl

theorem v75 : ((0x75 : Byte) : Nat) = 0x75 := rfl

theorem getu4_hex (h1 h2 h3 h4 : Byte) (d1 d2 d3 d4 : Nat) (r : List Byte)
    (e1 : hexVal h1 = some d1) (e2 : hexVal h2 = some d2) (e3 : hexVal h3 = some d3)
    (e4 : hexVal h4 = some d4) :
    getu4 (0x5C :: 0x75 :: h1 :: h2 :: h3 :: h4 :: r)
      = some (((d1 * 16 + d2) * 16 + d3) * 16 + d4) := by
  simp [getu4, e1, e2, e3, e4, v5C, v75]

theorem unquote_u (k : Nat) (h1 h2 h3 h4 : Byte) (d1 d2 d3 d4 : Nat) (r : List Byte)
    (e1 : hexVal h1 = some d1) (e2 : hexVal h2 = some d2) (e3 : hexVal h3 = some d3)
    (e4 : hexVal h4 = some d4)
    (hns : IsSurrogate (((d1 * 16 + d2) * 16 + d3) * 16 + d4) = false) :
    unquoteLoop (k + 1) (0x5C :: 0x75 :: h1 :: h2 :: h3 :: h4 :: r)
      = (unquoteLoop k r).map
          (fun p => (EncodeRune (((d1 * 16 + d2) * 16 + d3) * 16 + d4) ++ p.1, p.2)) := by
  have hg := getu4_hex h1 h2 h3 h4 d1 d2 d3 d4 r e1 e2 e3 e4
  simp [unquoteLoop, hg, hns, v5C, v75]

theorem hexVal_lits : hexVal 0x30 = some 0 ∧ hexVal 0x32 = some 2 ∧ hexVal 0x66 = some 15
    ∧ hexVal 0x64 = some 13 := by decide

theorem unquote_fffd (k : Nat) (r : List Byte) :
    unquoteLoop (k + 1) ([0x5C, 0x75, 0x66, 0x66, 0x66, 0x64] ++ r)
      = (unquoteLoop k r).map (fun p => (EncodeRune RuneError ++ p.1, p.2)) := by
  have h := unquote_u k 0x66 0x66 0x66 0x64 15 15 15 13 r hexVal_lits.2.2.1 hexVal_lits.2.2.1
    hexVal_lits.2.2.1 hexVal_lits.2.2.2 (by decide)
  exact h

theorem unquote_202x (k : Nat) (c : Nat) (hc : c = 0x2028 ∨ c = 0x2029) (r : List Byte) :
    unquoteLoop (k + 1) ([0x5C, 0x75, 0x32, 0x30, 0x32, hexDigit (c % 16)] ++ r)
      = (unquoteLoop k r).map (fun p => (EncodeRune c ++ p.1, p.2)) := by
  have h := unquote_u k 0x32 0x30 0x32 (hexDigit (c % 16)) 2 0 2 (c % 16) r hexVal_lits.2.1
    hexVal_lits.1 hexVal_lits.2.1 (hexVal_hexDigit _ (by omega))
    (by rcases hc with rfl | rfl <;> decide)
  have e : ((2 * 16 + 0) * 16 + 2) * 16 + c % 16 = c := by omega
  rw [e] at h
  exact h

theorem encodeRune_ascii (b : Byte) (h : b.val < 0x80) : EncodeRune b.val = [b] := by
  have e1 : b.val ≤ 0x7F := by omega
  simp only [EncodeRune, if_pos e1]
  rw [byte_eq _ b rfl]

theorem unquote_escape (k : Nat) (b : Byte) (r : List Byte) (hb : b.val < 0x80)
    (hs : htmlSafeSet b.val = false) :
    unquoteLoop (k + 1) (escapeByte b ++ r) = (unquoteLoop k r).map (fun p => (b :: p.1, p.2)) := by
  unfold escapeByte
  split_ifs with c1 c2 c3 c4 c5 c6
  · rcases c1 with c1 | c1
    · have : b = 0x5C := Fin.ext c1
      subst this
      simp [unquoteLoop, Fin.coe_ofNat_eq_mod]
    · have : b = 0x22 := Fin.ext c1
      subst this
      simp [unquoteLoop, Fin.coe_ofNat_eq_mod]
  · have : b = 0x08 := Fin.ext c2
    subst this
    simp [unquoteLoop, Fin.coe_ofNat_eq_mod]
  · have : b = 0x0C := Fin.ext c3
    subst this
    simp [unquoteLoop, Fin.coe_ofNat_eq_mod]
  · have : b = 0x0A := Fin.ext c4
    subst this
    simp [unquoteLoop, Fin.coe_ofNat_eq_mod]
  · have : b = 0x0D := Fin.ext c5
    subst this
    simp [unquoteLoop, Fin.coe_ofNat_eq_mod]
  · have : b = 0x09 := Fin.ext c6
    subst this
    simp [unquoteLoop, Fin.coe_ofNat_eq_mod]
  · have h := unquote_u k 0x30 0x30 (hexDigit (b.val / 16)) (hexDigit (b.val % 16)) 0 0
      (b.val / 16) (b.val % 16) r hexVal_lits.1 hexVal_lits.1 (hexVal_hexDigit _ (by omega))
      (hexVal_hexDigit _ (by omega)) (by simp [IsSurrogate]; omega)
    have e : ((0 * 16 + 0) * 16 + b.val / 16) * 16 + b.val % 16 = b.val := by omega
    rw [e, encodeRune_ascii b hb] at h
    exact h

theorem unquote_quote (k : Nat) (r : List Byte) :
    unquoteLoop (k + 1) (0x22 :: r) = some ([], r) := by
  simp [unquoteLoop, Fin.coe_ofNat_eq_mod]

theorem unquote_multi (k : Nat) (b : Byte) (pre r : List Byte) (hb : 0x80 ≤ b.val)
    (hsz : (DecodeRune (b :: (pre ++ r))).2 = pre.length + 1) :
    unquoteLoop (k + 1) (b :: (pre ++ r))
      = (unquoteLoop k r).map
          (fun p => (EncodeRune (DecodeRune (b :: (pre ++ r))).1 ++ p.1, p.2)) := by
  have a1 : ¬ b.val = 0x22 := by omega
  have a2 : ¬ b.val = 0x5C := by omega
  have a3 : ¬ b.val < 0x20 := by omega
  have a4 : ¬ b.val < 0x80 := by omega
  simp only [unquoteLoop, if_neg a1, if_neg a2, if_neg a3, if_neg a4, hsz,
    Nat.add_sub_cancel, List.drop_left]

/-- Reading back the body of an encoded string literal gives the string coerced
to valid UTF-8, and stops after the closing quote. -/
theorem unquote_appendStringLoop : ∀ (fuel : Nat) (s rest : List Byte) (f2 : Nat),
    s.length ≤ fuel → (appendStringLoop fuel s).length < f2 →
    unquoteLoop f2 (appendStringLoop fuel s ++ 0x22 :: rest) = some (coerceLoop fuel s, rest) := by
  intro fuel
  induction fuel with
  | zero =>
    intro s rest f2 _ hf
    obtain ⟨k, rfl⟩ : ∃ k, f2 = k + 1 := ⟨f2 - 1, by omega⟩
    simp [appendStringLoop, coerceLoop, unquote_quote]
  | succ fuel ih =>
    intro s rest f2 hs hf
    obtain ⟨k, rfl⟩ : ∃ k, f2 = k + 1 := ⟨f2 - 1, by omega⟩
    rcases s with _ | ⟨b, t⟩
    · simp [appendStringLoop, coerceLoop, unquote_quote]
    · simp only [List.length_cons, Nat.add_le_add_iff_right] at hs
      by_cases hb : b.val < 0x80
      · simp only [appendStringLoop, coerceLoop, if_pos hb] at hf ⊢
        cases hsafe : htmlSafeSet b.val
        · simp only [hsafe, Bool.false_eq_true, if_false, List.length_append] at hf ⊢
          have hlen : 0 < (escapeByte b).length := by
            unfold escapeByte; split_ifs <;> simp
          rw [List.append_assoc, unquote_escape k b _ hb hsafe, ih t rest k hs (by omega)]
          rfl
        · simp only [hsafe, if_true, List.length_append, List.length_singleton] at hf ⊢
          rw [List.singleton_append, List.cons_append, unquote_safe k b _ hsafe,
            ih t rest k hs (by omega)]
          rfl
      · have hb' : 0x80 ≤ b.val := by omega
        by_cases hd : DecodeRune (b :: t) = (RuneError, 1)
        · have c1 : (DecodeRune (b :: t)).1 = RuneError ∧ (DecodeRune (b :: t)).2 = 1 := by
            rw [hd]; exact ⟨rfl, rfl⟩
          simp only [appendStringLoop, coerceLoop, if_neg hb, if_pos c1, List.length_append] at hf ⊢
          rw [List.append_assoc, unquote_fffd, ih t rest k hs (by simp at hf; omega)]
          simp [hd]
        · obtain ⟨pre, suf, rfl, h2, h3, h4, h5⟩ := DecodeRune_multi b t hb' hd
          have c1 : ¬ ((DecodeRune (b :: (pre ++ suf))).1 = RuneError
              ∧ (DecodeRune (b :: (pre ++ suf))).2 = 1) := by
            intro h; omega
          have hs' : suf.length ≤ fuel := by
            simp only [List.length_append] at hs; omega
          have c1' : ¬ ((DecodeRune (b :: (pre ++ suf))).1 = RuneError
              ∧ pre.length + 1 = 1) := by
            intro h; omega
          simp only [appendStringLoop, coerceLoop, if_neg hb, if_neg c1', h2, Nat.add_sub_cancel,
            List.drop_left] at hf ⊢
          by_cases c2 : (DecodeRune (b :: (pre ++ suf))).1 = 0x2028
              ∨ (DecodeRune (b :: (pre ++ suf))).1 = 0x2029
          · simp only [if_pos c2, List.length_append] at hf ⊢
            rw [List.append_assoc, unquote_202x k _ c2, ih suf rest k hs' (by simp at hf; omega)]
            rfl
          · simp only [if_neg c2, List.length_append] at hf ⊢
            have ht : List.take (pre.length + 1) (b :: (pre ++ suf)) = b :: pre := by
              simp
            rw [ht] at hf ⊢
            have hx := h5 (appendStringLoop fuel suf ++ 0x22 :: rest)
            have hsz : (DecodeRune (b :: (pre ++ (appendStringLoop fuel suf ++ 0x22 :: rest)))).2
                = pre.length + 1 := by rw [hx, h2]
            rw [List.cons_append, List.cons_append, List.append_assoc,
              unquote_multi k b pre _ hb' hsz, hx,
              ih suf rest k hs' (by simp at hf; omega)]
            rfl

theorem coerceLoop_valid : ∀ (fuel : Nat) (s : List Byte),
    s.length ≤ fuel → validLoop fuel s = true → coerceLoop fuel s = s := by
  intro fuel
  induction fuel with
  | zero =>
    intro s hs _
    have : s = [] := List.length_eq_zero.mp (by omega)
    subst this
    rfl
  | succ fuel ih =>
    intro s hs hv
    rcases s with _ | ⟨b, t⟩
    · rfl
    · simp only [List.length_cons, Nat.add_le_add_iff_right] at hs
      by_cases hb : b.val < 0x80
      · simp only [validLoop, coerceLoop, if_pos hb] at hv ⊢
        rw [ih t hs hv]
      · simp only [validLoop, coerceLoop, if_neg hb] at hv ⊢
        by_cases h1 : (DecodeRune (b :: t)).2 = 1
        · simp [h1] at hv
        · simp only [if_neg h1] at hv
          have hd : DecodeRune (b :: t) ≠ (RuneError, 1) := by
            intro h; rw [h] at h1; exact h1 rfl
          obtain ⟨pre, suf, rfl, h2, h3, h4, h5⟩ := DecodeRune_multi b t (by omega) hd
          simp only [h2, Nat.add_sub_cancel, List.drop_left] at hv ⊢
          have hs' : suf.length ≤ fuel := by
            simp only [List.length_append] at hs; omega
          rw [h4, ih suf hs' hv]
          rfl

theorem coerceUTF8_valid (s : GoString) (h : ValidString s = true) : coerceUTF8 s = s :=
  coerceLoop_valid s.length s (Nat.le_refl _) h

theorem tokens_string (n : Nat) (s : GoString) (rest : List Byte) :
    tokens (n + 1) (appendString s ++ rest)
      = (tokens n rest).map (fun ts => Token.str (coerceUTF8 s) :: ts) := by
  have h := unquote_appendStringLoop s.length s rest
    (appendStringLoop s.length s ++ 0x22 :: rest).length (Nat.le_refl _) (by simp)
  simp only [appendString, List.singleton_append, List.cons_append, List.append_assoc,
    List.nil_append]
  simp only [List.length_append, List.length_cons] at h
  simp [tokens, isSpace, Fin.coe_ofNat_eq_mod, h, coerceUTF8]

theorem tokens_punct (n : Nat) (rest : List Byte) :
    tokens (n + 1) (0x7B :: rest) = (tokens n rest).map (fun ts => Token.lbrace :: ts)
    ∧ tokens (n + 1) (0x7D :: rest) = (tokens n rest).map (fun ts => Token.rbrace :: ts)
    ∧ tokens (n + 1) (0x3A :: rest) = (tokens n rest).map (fun ts => Token.colon :: ts)
    ∧ tokens (n + 1) (0x2C :: rest) = (tokens n rest).map (fun ts => Token.comma :: ts) := by
  simp [tokens, isSpace, Fin.coe_ofNat_eq_mod]

theorem tokens_nil (n : Nat) : tokens n [] = some [] := by
  cases n <;> simp [tokens]

theorem encodeMember_eq (name : String) (v : GoString)
    (h : appendString (lit name) = [0x22] ++ lit name ++ [0x22]) :
    encodeMember name v = appendString (lit name) ++ (0x3A :: appendString v) := by
  rw [h]; simp [encodeMember]

theorem tokens_member (n : Nat) (name : String) (v : GoString) (rest : List Byte)
    (h : appendString (lit name) = [0x22] ++ lit name ++ [0x22])
    (hc : coerceUTF8 (lit name) = lit name) :
    tokens (n + 3) (encodeMember name v ++ rest)
      = (tokens n rest).map
          (fun ts => Token.str (lit name) :: Token.colon :: Token.str (coerceUTF8 v) :: ts) := by
  rw [encodeMember_eq name v h, List.append_assoc, tokens_string, List.cons_append,
    (tokens_punct _ _).2.2.1, tokens_string, hc]
  simp only [Option.map_map]
  rfl

theorem encodeMember_length (name : String) (v : GoString) :
    5 ≤ (encodeMember name v).length := by
  simp [encodeMember, appendString]
  omega

theorem names_plain :
    (appendString (lit "DEALERID") = [0x22] ++ lit "DEALERID" ++ [0x22]
      ∧ coerceUTF8 (lit "DEALERID") = lit "DEALERID")
    ∧ (appendString (lit "MSISDN") = [0x22] ++ lit "MSISDN" ++ [0x22]
      ∧ coerceUTF8 (lit "MSISDN") = lit "MSISDN")
    ∧ (appendString (lit "MPIN") = [0x22] ++ lit "MPIN" ++ [0x22]
      ∧ coerceUTF8 (lit "MPIN") = lit "MPIN")
    ∧ (appendString (lit "BALANCE") = [0x22] ++ lit "BALANCE" ++ [0x22]
      ∧ coerceUTF8 (lit "BALANCE") = lit "BALANCE")
    ∧ (appendString (lit "STATUS") = [0x22] ++ lit "STATUS" ++ [0x22]
      ∧ coerceUTF8 (lit "STATUS") = lit "STATUS")
    ∧ (appendString (lit "TRANSAMOUNT") = [0x22] ++ lit "TRANSAMOUNT" ++ [0x22]
      ∧ coerceUTF8 (lit "TRANSAMOUNT") = lit "TRANSAMOUNT")
    ∧ (appendString (lit "TRANSTYPE") = [0x22] ++ lit "TRANSTYPE" ++ [0x22]
      ∧ coerceUTF8 (lit "TRANSTYPE") = lit "TRANSTYPE")
    ∧ (appendString (lit "REMARKS") = [0x22] ++ lit "REMARKS" ++ [0x22]
      ∧ coerceUTF8 (lit "REMARKS") = lit "REMARKS") := by
  decide

theorem tokens_encodeDealerAsset (a : DealerAsset) :
    tokens (encodeDealerAsset a).length (encodeDealerAsset a)
      = some [Token.lbrace,
          Token.str (lit "DEALERID"), Token.colon, Token.str (coerceUTF8 a.DEALERID), Token.comma,
          Token.str (lit "MSISDN"), Token.colon, Token.str (coerceUTF8 a.MSISDN), Token.comma,
          Token.str (lit "MPIN"), Token.colon, Token.str (coerceUTF8 a.MPIN), Token.comma,
          Token.str (lit "BALANCE"), Token.colon, Token.str (coerceUTF8 a.BALANCE), Token.comma,
          Token.str (lit "STATUS"), Token.colon, Token.str (coerceUTF8 a.STATUS), Token.comma,
          Token.str (lit "TRANSAMOUNT"), Token.colon, Token.str (coerceUTF8 a.TRANSAMOUNT),
          Token.comma,
          Token.str (lit "TRANSTYPE"), Token.colon, Token.str (coerceUTF8 a.TRANSTYPE),
          Token.comma,
          Token.str (lit "REMARKS"), Token.colon, Token.str (coerceUTF8 a.REMARKS),
          Token.rbrace] := by
  obtain ⟨m, hm⟩ : ∃ m, (encodeDealerAsset a).length = m + 33 := by
    have h1 := encodeMember_length "DEALERID" a.DEALERID
    have h2 := encodeMember_length "MSISDN" a.MSISDN
    have h3 := encodeMember_length "MPIN" a.MPIN
    have h4 := encodeMember_length "BALANCE" a.BALANCE
    have h5 := encodeMember_length "STATUS" a.STATUS
    have h6 := encodeMember_length "TRANSAMOUNT" a.TRANSAMOUNT
    have h7 := encodeMember_length "TRANSTYPE" a.TRANSTYPE
    have h8 := encodeMember_length "REMARKS" a.REMARKS
    refine ⟨(encodeDealerAsset a).length - 33, ?_⟩
    simp only [encodeDealerAsset, List.length_append, List.length_singleton]
    omega
  rw [hm]
  obtain ⟨⟨p1, q1⟩, ⟨p2, q2⟩, ⟨p3, q3⟩, ⟨p4, q4⟩, ⟨p5, q5⟩, ⟨p6, q6⟩, ⟨p7, q7⟩, ⟨p8, q8⟩⟩ :=
    names_plain
  simp only [encodeDealerAsset, List.append_assoc, List.singleton_append, List.cons_append,
    List.nil_append]
  rw [(tokens_punct _ _).1,
    tokens_member _ _ _ _ p1 q1, (tokens_punct _ _).2.2.2,
    tokens_member _ _ _ _ p2 q2, (tokens_punct _ _).2.2.2,
    tokens_member _ _ _ _ p3 q3, (tokens_punct _ _).2.2.2,
    tokens_member _ _ _ _ p4 q4, (tokens_punct _ _).2.2.2,
    tokens_member _ _ _ _ p5 q5, (tokens_punct _ _).2.2.2,
    tokens_member _ _ _ _ p6 q6, (tokens_punct _ _).2.2.2,
    tokens_member _ _ _ _ p7 q7, (tokens_punct _ _).2.2.2,
    tokens_member _ _ _ _ p8 q8, (tokens_punct _ _).2.1, tokens_nil]
  rfl

/-- Decoding the encoding of a record gives the record with its fields coerced
to valid UTF-8. -/
theorem Unmarshal_encode (a : DealerAsset) :
    json.Unmarshal (encodeDealerAsset a) = some a.coerce := by
  simp only [json.Unmarshal, decodeDealerAsset, tokens_encodeDealerAsset]
  rfl

theorem coerce_valid (a : DealerAsset) (h : a.Valid = true) : a.coerce = a := by
  simp only [DealerAsset.Valid, Bool.and_eq_true] at h
  obtain ⟨⟨⟨⟨⟨⟨⟨h1, h2⟩, h3⟩, h4⟩, h5⟩, h6⟩, h7⟩, h8⟩ := h
  simp only [DealerAsset.coerce, coerceUTF8_valid _ h1, coerceUTF8_valid _ h2,
    coerceUTF8_valid _ h3, coerceUTF8_valid _ h4, coerceUTF8_valid _ h5,
    coerceUTF8_valid _ h6, coerceUTF8_valid _ h7, coerceUTF8_valid _ h8]

theorem createAsset_ok (stub : Stub) (a0 a1 a2 a3 a4 a5 a6 a7 : GoString)
    (habs : stub.state a0 = none)
    (hget : stub.faults.getState a0 = none)
    (hput : stub.faults.putState a0 (encodeDealerAsset ⟨a0, a1, a2, a3, a4, a5, a6, a7⟩) = none)
    (hev : stub.faults.setEvent (lit "AssetCreated") a0 = none) :
    createAsset stub [a0, a1, a2, a3, a4, a5, a6, a7]
      = (shim.Success [],
          { stub with
            state := fun k =>
              if k = a0 then some (encodeDealerAsset ⟨a0, a1, a2, a3, a4, a5, a6, a7⟩)
              else stub.state k
            history := fun k =>
              if k = a0 then
                stub.history k ++ [⟨(stub.history a0).length,
                  ⟨stub.txID, encodeDealerAsset ⟨a0, a1, a2, a3, a4, a5, a6, a7⟩,
                    stub.txTimestamp, false⟩⟩]
              else stub.history k
            events := stub.events ++ [(lit "AssetCreated", a0)]
            calls := stub.calls ++ [Call.GetState a0,
              Call.PutState a0 (encodeDealerAsset ⟨a0, a1, a2, a3, a4, a5, a6, a7⟩),
              Call.SetEvent (lit "AssetCreated") a0] }) := by
  simp [createAsset, Stub.GetState, Stub.PutState, Stub.SetEvent, json.Marshal, habs, hget, hput,
      hev, Stub.respond, shim.Success, shim.Error, shim.OK, shim.ERROR]

theorem updateAsset_ok (stub : Stub) (a0 a1 a2 a3 a4 a5 a6 a7 : GoString)
    (hput : stub.faults.putState a0 (encodeDealerAsset ⟨a0, a1, a2, a3, a4, a5, a6, a7⟩) = none) :
    updateAsset stub [a0, a1, a2, a3, a4, a5, a6, a7]
      = (shim.Success [],
          { stub with
            state := fun k =>
              if k = a0 then some (encodeDealerAsset ⟨a0, a1, a2, a3, a4, a5, a6, a7⟩)
              else stub.state k
            history := fun k =>
              if k = a0 then
                stub.history k ++ [⟨(stub.history a0).length,
                  ⟨stub.txID, encodeDealerAsset ⟨a0, a1, a2, a3, a4, a5, a6, a7⟩,
                    stub.txTimestamp, false⟩⟩]
              else stub.history k
            calls := stub.calls ++ [Call.PutState a0
              (encodeDealerAsset ⟨a0, a1, a2, a3, a4, a5, a6, a7⟩)] }) := by
  simp [updateAsset, Stub.PutState, json.Marshal, hput, Stub.respond, shim.Success, shim.Error,
      shim.OK, shim.ERROR]

theorem queryAsset_some (stub : Stub) (id : GoString) (b : Bytes)
    (hst : stub.state id = some b) (hget : stub.faults.getState id = none) :
    queryAsset stub [id]
      = (shim.Success b, { stub with calls := stub.calls ++ [Call.GetState id] }) := by
  simp [queryAsset, Stub.GetState, hst, hget]

theorem queryAsset_none (stub : Stub) (id : GoString)
    (hst : stub.state id = none) (hget : stub.faults.getState id = none) :
    queryAsset stub [id]
      = (shim.Error (lit "Asset not found"),
          { stub with calls := stub.calls ++ [Call.GetState id] }) := by
  simp [queryAsset, Stub.GetState, hst, hget]

theorem length_eight (args : List GoString) (h : args.length = 8) :
    ∃ a0 a1 a2 a3 a4 a5 a6 a7, args = [a0, a1, a2, a3, a4, a5, a6, a7] := by
  rcases args with _ | ⟨a0, _ | ⟨a1, _ | ⟨a2, _ | ⟨a3, _ | ⟨a4, _ | ⟨a5, _ | ⟨a6, _ | ⟨a7, _ | ⟨a8, t⟩⟩⟩⟩⟩⟩⟩⟩⟩
    <;> simp at h
  exact ⟨a0, a1, a2, a3, a4, a5, a6, a7, rfl⟩

theorem createAsset_arity (stub : Stub) (args : List GoString) (h : args.length ≠ 8) :
    createAsset stub args
      = (shim.Error (lit "Incorrect number of arguments. Expecting 8"), stub) := by
  rcases args with _ | ⟨a0, _ | ⟨a1, _ | ⟨a2, _ | ⟨a3, _ | ⟨a4, _ | ⟨a5, _ | ⟨a6, _ | ⟨a7, _ | ⟨a8, t⟩⟩⟩⟩⟩⟩⟩⟩⟩
    <;> first | rfl | (exfalso; exact h rfl)

theorem updateAsset_arity (stub : Stub) (args : List GoString) (h : args.length ≠ 8) :
    updateAsset stub args
      = (shim.Error (lit "Incorrect number of arguments. Expecting 8"), stub) := by
  rcases args with _ | ⟨a0, _ | ⟨a1, _ | ⟨a2, _ | ⟨a3, _ | ⟨a4, _ | ⟨a5, _ | ⟨a6, _ | ⟨a7, _ | ⟨a8, t⟩⟩⟩⟩⟩⟩⟩⟩⟩
    <;> first | rfl | (exfalso; exact h rfl)

theorem queryAsset_arity (stub : Stub) (args : List GoString) (h : args.length ≠ 1) :
    queryAsset stub args
      = (shim.Error (lit "Incorrect number of arguments. Expecting 1"), stub) := by
  rcases args with _ | ⟨a0, _ | ⟨a1, t⟩⟩ <;> first | rfl | (exfalso; exact h rfl)

theorem getAssetHistory_arity (ts : Int → Int → GoString) (stub : Stub) (args : List GoString)
    (h : args.length ≠ 1) :
    getAssetHistory ts stub args
      = (shim.Error (lit "Incorrect number of arguments. Expecting 1"), stub) := by
  rcases args with _ | ⟨a0, _ | ⟨a1, t⟩⟩ <;> first | rfl | (exfalso; exact h rfl)

theorem historyLoop_ok (ts : Int → Int → GoString) :
    ∀ (h : List HistoryEntry) (i : Nat) (fault : Nat → Option GoString) (buffer : Bytes),
      (∀ j, fault j = none) →
      historyLoop ts (Stub.iterate fault i h) buffer true
        = .ok (buffer ++ (List.map (fun e => lit "," ++ writeEntry ts e.mod) h).flatten) := by
  intro h
  induction h with
  | nil => intro i fault buffer _; simp [Stub.iterate, historyLoop]
  | cons e t ih =>
    intro i fault buffer hf
    simp only [Stub.iterate, hf i, historyLoop, if_true]
    rw [ih (i + 1) fault _ hf]
    simp

theorem writeEntry_eq (ts : Int → Int → GoString) (e : KeyModification) :
    writeEntry ts e = specEntry ts e := by
  have e1 : lit "\x7b\"TxId\":" ++ lit "\"" = lit "\x7b\"TxId\":\"" := by decide
  simp only [writeEntry, specEntry, FormatBool, List.append_assoc]
  rw [← List.append_assoc (lit "\x7b\"TxId\":"), e1]
  congr 2

theorem intercalate_cons (sep : Bytes) (x : Bytes) (l : List Bytes) :
    List.intercalate sep (x :: l) = x ++ (List.map (fun y => sep ++ y) l).flatten := by
  induction l generalizing x with
  | nil => simp [List.intercalate]
  | cons y t ih =>
    have := ih y
    simp only [List.intercalate, List.intersperse, List.flatten_cons, List.map_cons] at this ⊢
    rw [this, List.append_assoc]

/-- Without iterator faults, `getAssetHistory` answers the rendering of the
history of the key and only records its call. -/
theorem getAssetHistory_ok (ts : Int → Int → GoString) (stub : Stub) (key : GoString)
    (hh : stub.faults.getHistoryForKey key = none)
    (hn : ∀ i, stub.faults.next key i = none) :
    getAssetHistory ts stub [key]
      = (shim.Success (specHistory ts (mods (stub.history key))),
          { stub with calls := stub.calls ++ [Call.GetHistoryForKey key] }) := by
  have hloop : historyLoop ts (Stub.iterate (stub.faults.next key) 0 (stub.history key))
      (lit "[") false
      = .ok (lit "[" ++ List.intercalate (lit ",")
          ((mods (stub.history key)).map (specEntry ts))) := by
    rcases hk : stub.history key with _ | ⟨e, t⟩
    · simp [Stub.iterate, historyLoop, mods, List.intercalate]
    · simp only [Stub.iterate, hn 0, historyLoop, mods, List.map_cons]
      rw [intercalate_cons]
      simp only [Bool.false_eq_true, if_false]
      rw [historyLoop_ok ts t 1 _ _ hn, writeEntry_eq]
      simp only [List.append_assoc, List.map_map, writeEntry_eq]
      rfl
  simp only [getAssetHistory, Stub.GetHistoryForKey, hh, hloop, specHistory]

theorem runWrite_ok (stub : Stub) (id : GoString) (w : Write)
    (h : (runWrite stub id w).1.Status = shim.OK) :
    (runWrite stub id w).2.history id
      = stub.history id ++ [⟨(stub.history id).length,
          ⟨w.txID, encodeDealerAsset (w.asset id), w.txTimestamp, false⟩⟩]
    ∧ (runWrite stub id w).2.faults = stub.faults := by
  simp only [runWrite, Write.args, Write.asset] at h ⊢
  cases hc : w.create
  · simp only [hc, Bool.false_eq_true, if_false] at h ⊢
    rcases hp : stub.faults.putState id (encodeDealerAsset ⟨id, w.MSISDN, w.MPIN, w.BALANCE,
      w.STATUS, w.TRANSAMOUNT, w.TRANSTYPE, w.REMARKS⟩) with _ | err
    · simp [updateAsset, json.Marshal, Stub.PutState, hp, Stub.respond, shim.Success, shim.Error,
        shim.OK, shim.ERROR]
    · simp [updateAsset, json.Marshal, Stub.PutState, hp, Stub.respond, shim.Success, shim.Error,
        shim.OK, shim.ERROR] at h
  · simp only [hc, if_true] at h ⊢
    rcases hg : stub.faults.getState id with _ | err
    · rcases hs : stub.state id with _ | v
      · rcases hp : stub.faults.putState id (encodeDealerAsset ⟨id, w.MSISDN, w.MPIN,
          w.BALANCE, w.STATUS, w.TRANSAMOUNT, w.TRANSTYPE, w.REMARKS⟩) with _ | err
        · rcases he : stub.faults.setEvent (lit "AssetCreated") id with _ | err
          · simp [createAsset, json.Marshal, Stub.GetState, Stub.PutState, Stub.SetEvent, hg, hs,
              hp, he, Stub.respond, shim.Success, shim.Error, shim.OK, shim.ERROR]
          · simp [createAsset, json.Marshal, Stub.GetState, Stub.PutState, Stub.SetEvent, hg, hs,
              hp, he, Stub.respond, shim.Success, shim.Error, shim.OK, shim.ERROR] at h
        · simp [createAsset, json.Marshal, Stub.GetState, Stub.PutState, hg, hs, hp, Stub.respond,
            shim.Success, shim.Error, shim.OK, shim.ERROR] at h
      · simp [createAsset, Stub.GetState, hg, hs, Stub.respond, shim.Success, shim.Error, shim.OK,
          shim.ERROR] at h
    · simp [createAsset, Stub.GetState, hg, Stub.respond, shim.Success, shim.Error, shim.OK,
        shim.ERROR] at h

/-- Successful writes to one id append their entries to the history of the id,
in call order, and leave the faults of the platform as they were. -/
theorem runWrites_ok (id : GoString) : ∀ (ws : List Write) (stub : Stub),
    (∀ r ∈ (runWrites stub id ws).1, r.Status = shim.OK) →
    (runWrites stub id ws).2.history id
      = stub.history id ++ expectedHistory id (stub.history id).length ws
    ∧ (runWrites stub id ws).2.faults = stub.faults := by
  intro ws
  induction ws with
  | nil => intro stub _; simp [runWrites, expectedHistory]
  | cons w t ih =>
    intro stub h
    simp only [runWrites, List.mem_cons, forall_eq_or_imp] at h ⊢
    obtain ⟨h1, h2⟩ := runWrite_ok stub id w h.1
    obtain ⟨h3, h4⟩ := ih (runWrite stub id w).2 h.2
    rw [h3, h4, h1, h2]
    simp [expectedHistory]

theorem expectedHistory_seq (id : GoString) : ∀ (ws : List Write) (start : Nat),
    (expectedHistory id start ws).map HistoryEntry.seq = List.range' start ws.length := by
  intro ws
  induction ws with
  | nil => intro start; simp [expectedHistory]
  | cons w t ih => intro start; simp [expectedHistory, ih, List.range']

theorem expectedHistory_value (id : GoString) : ∀ (ws : List Write) (start : Nat),
    (mods (expectedHistory id start ws)).map KeyModification.Value
      = ws.map (fun w => encodeDealerAsset (w.asset id)) := by
  intro ws
  induction ws with
  | nil => intro start; simp [expectedHistory, mods]
  | cons w t ih =>
    intro start
    have := ih (start + 1)
    simp only [mods, List.map_map] at this
    simp [expectedHistory, mods, this]

theorem expectedHistory_isDelete (id : GoString) : ∀ (ws : List Write) (start : Nat),
    (mods (expectedHistory id start ws)).map KeyModification.IsDelete
      = List.replicate ws.length false := by
  intro ws
  induction ws with
  | nil => intro start; simp [expectedHistory, mods]
  | cons w t ih =>
    intro start
    have := ih (start + 1)
    simp only [mods, List.map_map] at this
    simp [expectedHistory, mods, this, List.replicate_succ]

/-! ## Lemmas on the outcomes of the writes -/

/-- The outcomes of `createAsset` on eight arguments: a success, when the key is
absent and the platform accepts the read, the write and the event; or an error
that leaves the store, the histories and the events as they were. -/
theorem createAsset_cases (stub : Stub) (a0 a1 a2 a3 a4 a5 a6 a7 : GoString) :
    (stub.faults.getState a0 = none ∧ stub.state a0 = none
      ∧ stub.faults.putState a0 (encodeDealerAsset ⟨a0, a1, a2, a3, a4, a5, a6, a7⟩) = none
      ∧ stub.faults.setEvent (lit "AssetCreated") a0 = none
      ∧ (createAsset stub [a0, a1, a2, a3, a4, a5, a6, a7]).1 = shim.Success [])
    ∨ ((createAsset stub [a0, a1, a2, a3, a4, a5, a6, a7]).1.Status = shim.ERROR
      ∧ (createAsset stub [a0, a1, a2, a3, a4, a5, a6, a7]).2.state = stub.state
      ∧ (createAsset stub [a0, a1, a2, a3, a4, a5, a6, a7]).2.history = stub.history
      ∧ (createAsset stub [a0, a1, a2, a3, a4, a5, a6, a7]).2.events = stub.events) := by
  rcases hg : stub.faults.getState a0 with _ | err
  · rcases hs : stub.state a0 with _ | v
    · rcases hp : stub.faults.putState a0
        (encodeDealerAsset ⟨a0, a1, a2, a3, a4, a5, a6, a7⟩) with _ | err
      · rcases he : stub.faults.setEvent (lit "AssetCreated") a0 with _ | err
        · left
          simp [createAsset, json.Marshal, Stub.GetState, Stub.PutState, Stub.SetEvent, hg, hs,
              hp, he, Stub.respond, shim.Success, shim.Error, shim.OK, shim.ERROR]
        · right
          simp [createAsset, json.Marshal, Stub.GetState, Stub.PutState, Stub.SetEvent, hg, hs,
              hp, he, Stub.respond, shim.Success, shim.Error, shim.OK, shim.ERROR]
      · right
        simp [createAsset, json.Marshal, Stub.GetState, Stub.PutState, hg, hs, hp, Stub.respond,
            shim.Success, shim.Error, shim.OK, shim.ERROR]
    · right
      simp [createAsset, Stub.GetState, hg, hs, Stub.respond, shim.Success, shim.Error, shim.OK,
          shim.ERROR]
  · right
    simp [createAsset, Stub.GetState, hg, Stub.respond, shim.Success, shim.Error, shim.OK,
        shim.ERROR]

theorem status_ne : shim.ERROR ≠ shim.OK := by decide

theorem updateAsset_cases (stub : Stub) (a0 a1 a2 a3 a4 a5 a6 a7 : GoString) :
    (stub.faults.putState a0 (encodeDealerAsset ⟨a0, a1, a2, a3, a4, a5, a6, a7⟩) = none
      ∧ (updateAsset stub [a0, a1, a2, a3, a4, a5, a6, a7]).1 = shim.Success [])
    ∨ ((updateAsset stub [a0, a1, a2, a3, a4, a5, a6, a7]).1.Status = shim.ERROR
      ∧ (updateAsset stub [a0, a1, a2, a3, a4, a5, a6, a7]).2.state = stub.state
      ∧ (updateAsset stub [a0, a1, a2, a3, a4, a5, a6, a7]).2.history = stub.history
      ∧ (updateAsset stub [a0, a1, a2, a3, a4, a5, a6, a7]).2.events = stub.events) := by
  rcases hp : stub.faults.putState a0
    (encodeDealerAsset ⟨a0, a1, a2, a3, a4, a5, a6, a7⟩) with _ | err
  · left
    simp [updateAsset, json.Marshal, Stub.PutState, hp, Stub.respond, shim.Success, shim.Error,
        shim.OK, shim.ERROR]
  · right
    simp [updateAsset, json.Marshal, Stub.PutState, hp, Stub.respond, shim.Success, shim.Error,
        shim.OK, shim.ERROR]

/-- What a call of `createAsset` does to the store: nothing, or the write of the
serialization of the record of its arguments under the id of that record, which
the platform accepted. -/
theorem createAsset_state (stub : Stub) (args : List GoString) :
    (createAsset stub args).2.state = stub.state
    ∨ (args.length = 8
      ∧ stub.faults.putState (args.getD 0 []) (encodeDealerAsset (assetOf args)) = none
      ∧ (createAsset stub args).2.state
          = fun k => if k = args.getD 0 [] then some (encodeDealerAsset (assetOf args))
              else stub.state k) := by
  by_cases hlen : args.length = 8
  · obtain ⟨a0, a1, a2, a3, a4, a5, a6, a7, rfl⟩ := length_eight args hlen
    simp only [assetOf, List.getD_cons_zero, List.getD_cons_succ]
    rcases createAsset_cases stub a0 a1 a2 a3 a4 a5 a6 a7 with
      ⟨hg, hs, hp, he, _⟩ | ⟨_, h1, _⟩
    · right
      refine ⟨rfl, hp, ?_⟩
      rw [createAsset_ok stub a0 a1 a2 a3 a4 a5 a6 a7 hs hg hp he]
    · left; exact h1
  · left; rw [createAsset_arity stub args hlen]

theorem updateAsset_state (stub : Stub) (args : List GoString) :
    (updateAsset stub args).2.state = stub.state
    ∨ (args.length = 8
      ∧ stub.faults.putState (args.getD 0 []) (encodeDealerAsset (assetOf args)) = none
      ∧ (updateAsset stub args).2.state
          = fun k => if k = args.getD 0 [] then some (encodeDealerAsset (assetOf args))
              else stub.state k) := by
  by_cases hlen : args.length = 8
  · obtain ⟨a0, a1, a2, a3, a4, a5, a6, a7, rfl⟩ := length_eight args hlen
    simp only [assetOf, List.getD_cons_zero, List.getD_cons_succ]
    rcases updateAsset_cases stub a0 a1 a2 a3 a4 a5 a6 a7 with ⟨hp, _⟩ | ⟨_, h1, _⟩
    · right
      refine ⟨rfl, hp, ?_⟩
      rw [updateAsset_ok stub a0 a1 a2 a3 a4 a5 a6 a7 hp]
    · left; exact h1
  · left; rw [updateAsset_arity stub args hlen]

theorem runOp_state (stub : Stub) (op : Op) :
    (runOp stub op).2.state = stub.state
    ∨ (op.args.length = 8
      ∧ stub.faults.putState (op.args.getD 0 []) (encodeDealerAsset (assetOf op.args)) = none
      ∧ (runOp stub op).2.state
          = fun k => if k = op.args.getD 0 [] then some (encodeDealerAsset (assetOf op.args))
              else stub.state k) := by
  simp only [runOp]
  split
  · exact createAsset_state _ op.args
  · exact updateAsset_state _ op.args

/-- In a store reached from a store whose values are serialized records stored
under their ids, keys that are not empty and are valid UTF-8, every value is
such a record under such a key. -/
theorem runOps_records : ∀ (ops : List Op) (stub : Stub),
    (∀ k v, stub.state k = some v →
      ∃ a, v = encodeDealerAsset a ∧ a.DEALERID = k ∧ k ≠ [] ∧ ValidString k = true) →
    ∀ k v, (runOps stub ops).state k = some v →
      ∃ a, v = encodeDealerAsset a ∧ a.DEALERID = k ∧ k ≠ [] ∧ ValidString k = true := by
  intro ops
  induction ops with
  | nil => intro stub h; exact h
  | cons op t ih =>
    intro stub h
    apply ih (runOp stub op).2
    intro k v hv
    rcases runOp_state stub op with hs | ⟨_, hp, hs⟩
    · rw [hs] at hv; exact h k v hv
    · rw [hs] at hv
      by_cases hk : k = op.args.getD 0 []
      · simp only [hk, if_true, Option.some.injEq] at hv
        have hkey := stub.faults.putState_key _ _ hp
        exact ⟨assetOf op.args, hv.symm, by rw [hk]; rfl, by rw [hk]; exact hkey.1,
          by rw [hk]; exact hkey.2⟩
      · simp only [hk, if_false] at hv
        exact h k v hv

theorem storedId_encode (a : DealerAsset) :
    storedId (encodeDealerAsset a) = some (coerceUTF8 a.DEALERID) := by
  simp only [storedId, Unmarshal_encode]
  rfl

/-! ## The claims -/

/-- Claim C1, amended: on a store where `args[0]` is absent, with eight
arguments and a platform that does not fault, `createAsset(args)` succeeds, the
following `queryAsset([args[0]])` succeeds, and its payload deserializes to the
record whose fields are `args[0]` to `args[7]` coerced to valid UTF-8 (each
invalid byte replaced by U+FFFD); when the eight arguments are valid UTF-8 this
is the record whose fields are `args[0]` to `args[7]`. -/
theorem create_then_query (stub : Stub) (args : List GoString) (hlen : args.length = 8)
    (habs : stub.state (args.getD 0 []) = none)
    (hget : stub.faults.getState (args.getD 0 []) = none)
    (hput : stub.faults.putState (args.getD 0 []) (encodeDealerAsset (assetOf args)) = none)
    (hev : stub.faults.setEvent (lit "AssetCreated") (args.getD 0 []) = none) :
    (createAsset stub args).1 = shim.Success []
    ∧ (queryAsset (createAsset stub args).2 [args.getD 0 []]).1.Status = shim.OK
    ∧ json.Unmarshal (queryAsset (createAsset stub args).2 [args.getD 0 []]).1.Payload
        = some (assetOf args).coerce
    ∧ ((assetOf args).Valid = true →
        json.Unmarshal (queryAsset (createAsset stub args).2 [args.getD 0 []]).1.Payload
          = some (assetOf args)) := by
  obtain ⟨a0, a1, a2, a3, a4, a5, a6, a7, rfl⟩ := length_eight args hlen
  simp only [assetOf, List.getD_cons_zero, List.getD_cons_succ] at habs hget hput hev ⊢
  have hc := createAsset_ok stub a0 a1 a2 a3 a4 a5 a6 a7 habs hget hput hev
  have hst : (createAsset stub [a0, a1, a2, a3, a4, a5, a6, a7]).2.state a0
      = some (encodeDealerAsset ⟨a0, a1, a2, a3, a4, a5, a6, a7⟩) := by
    rw [hc]; simp
  have hg : (createAsset stub [a0, a1, a2, a3, a4, a5, a6, a7]).2.faults.getState a0 = none := by
    rw [hc]; exact hget
  have hq := queryAsset_some _ a0 _ hst hg
  have hu : json.Unmarshal
      (queryAsset (createAsset stub [a0, a1, a2, a3, a4, a5, a6, a7]).2 [a0]).1.Payload
      = some (DealerAsset.coerce ⟨a0, a1, a2, a3, a4, a5, a6, a7⟩) := by
    rw [hq]
    simp only [shim.Success]
    rw [Unmarshal_encode]
  refine ⟨by rw [hc], by rw [hq]; rfl, hu, ?_⟩
  intro hvalid
  rw [hu, coerce_valid _ hvalid]

/-- Witness of C1: the example of the specification, on the empty ledger. -/
theorem create_then_query_witness :
    sampleAsset.args.length = 8
    ∧ emptyStub.state (sampleAsset.args.getD 0 []) = none
    ∧ (assetOf sampleAsset.args).Valid = true
    ∧ (createAsset emptyStub sampleAsset.args).1 = shim.Success []
    ∧ (queryAsset (createAsset emptyStub sampleAsset.args).2
        [sampleAsset.args.getD 0 []]).1.Status = shim.OK
    ∧ json.Unmarshal (queryAsset (createAsset emptyStub sampleAsset.args).2
        [sampleAsset.args.getD 0 []]).1.Payload = some (assetOf sampleAsset.args).coerce
    ∧ ((assetOf sampleAsset.args).Valid = true →
        json.Unmarshal (queryAsset (createAsset emptyStub sampleAsset.args).2
          [sampleAsset.args.getD 0 []]).1.Payload = some (assetOf sampleAsset.args)) :=
  ⟨rfl, rfl, by decide,
    create_then_query emptyStub sampleAsset.args rfl rfl rfl (by decide) rfl⟩

set_option maxRecDepth 100000 in
/-- Counterexample to C1 as stated: with the second argument the byte 0xFF, on
the empty ledger, `createAsset` and the following `queryAsset` succeed, and the
payload deserializes to a record whose second field is U+FFFD, which is not
the record of the arguments; the same payload is returned when the second
argument is the byte 0xFE, so no deserialization gives the arguments back in
both cases. -/
theorem create_then_query_counterexample :
    badAsset.args.length = 8
    ∧ emptyStub.state (badAsset.args.getD 0 []) = none
    ∧ (createAsset emptyStub badAsset.args).1 = shim.Success []
    ∧ (queryAsset (createAsset emptyStub badAsset.args).2 [badAsset.args.getD 0 []]).1.Status
        = shim.OK
    ∧ json.Unmarshal (queryAsset (createAsset emptyStub badAsset.args).2
        [badAsset.args.getD 0 []]).1.Payload = some badAssetCoerced
    ∧ badAssetCoerced ≠ assetOf badAsset.args
    ∧ (queryAsset (createAsset emptyStub badAsset.args).2 [badAsset.args.getD 0 []]).1
        = (queryAsset (createAsset emptyStub badAssetTwin.args).2
            [badAssetTwin.args.getD 0 []]).1
    ∧ assetOf badAsset.args ≠ assetOf badAssetTwin.args := by
  decide

/-- Claim C2: when the key `args[0]` already holds a value, `createAsset` with
eight arguments returns an error, which is the duplicate-key error
`This asset already exists: <id>` whenever the read itself does not fault, and
it changes nothing: the store and the history of every key are unchanged, no
event is emitted, and the only call made on the stub is the `GetState`. -/
theorem create_existing (stub : Stub) (args : List GoString) (v : Bytes)
    (hlen : args.length = 8) (hex : stub.state (args.getD 0 []) = some v) :
    (createAsset stub args).1.Status = shim.ERROR
    ∧ (stub.faults.getState (args.getD 0 []) = none →
        (createAsset stub args).1
          = shim.Error (lit "This asset already exists: " ++ args.getD 0 []))
    ∧ (createAsset stub args).2.state = stub.state
    ∧ (createAsset stub args).2.history = stub.history
    ∧ (createAsset stub args).2.events = stub.events
    ∧ (createAsset stub args).2.calls = stub.calls ++ [Call.GetState (args.getD 0 [])] := by
  obtain ⟨a0, a1, a2, a3, a4, a5, a6, a7, rfl⟩ := length_eight args hlen
  simp only [List.getD_cons_zero] at hex ⊢
  cases hf : stub.faults.getState a0 <;>
    simp [createAsset, Stub.GetState, hex, hf, Stub.respond, shim.Error, shim.ERROR]

/-- Witness of C2: creating the sample record on a store that holds `D1`. -/
theorem create_existing_witness :
    sampleAsset.args.length = 8
    ∧ storedStub.state (sampleAsset.args.getD 0 []) = some (lit "x")
    ∧ (createAsset storedStub sampleAsset.args).1.Status = shim.ERROR
    ∧ (storedStub.faults.getState (sampleAsset.args.getD 0 []) = none →
        (createAsset storedStub sampleAsset.args).1
          = shim.Error (lit "This asset already exists: " ++ sampleAsset.args.getD 0 []))
    ∧ (createAsset storedStub sampleAsset.args).2.state = storedStub.state
    ∧ (createAsset storedStub sampleAsset.args).2.history = storedStub.history
    ∧ (createAsset storedStub sampleAsset.args).2.events = storedStub.events
    ∧ (createAsset storedStub sampleAsset.args).2.calls
        = storedStub.calls ++ [Call.GetState (sampleAsset.args.getD 0 [])] :=
  ⟨rfl, rfl, create_existing storedStub sampleAsset.args (lit "x") rfl rfl⟩

/-- Claim C4: for an id that was never written (absent from the store, empty
history), on a platform whose reads do not fault, `queryAsset([id])` returns
the error `Asset not found`, and `getAssetHistory([id])` returns success with
the payload `[]`. -/
theorem never_written (ts : Int → Int → GoString) (stub : Stub) (id : GoString)
    (habs : stub.state id = none) (hnohist : stub.history id = [])
    (hget : stub.faults.getState id = none)
    (hh : stub.faults.getHistoryForKey id = none) :
    (queryAsset stub [id]).1 = shim.Error (lit "Asset not found")
    ∧ (getAssetHistory ts stub [id]).1 = shim.Success (lit "[]") := by
  constructor
  · rw [queryAsset_none stub id habs hget]
  · simp only [getAssetHistory, Stub.GetHistoryForKey, hh, hnohist, Stub.iterate, historyLoop]
    rfl

/-- Witness of C4: the id `D1` on the empty ledger. -/
theorem never_written_witness :
    emptyStub.state (lit "D1") = none
    ∧ emptyStub.history (lit "D1") = []
    ∧ (queryAsset emptyStub [lit "D1"]).1 = shim.Error (lit "Asset not found")
    ∧ (getAssetHistory sampleTime emptyStub [lit "D1"]).1 = shim.Success (lit "[]") :=
  ⟨rfl, rfl, never_written sampleTime emptyStub (lit "D1") rfl rfl rfl rfl⟩

/-- Claim C5, amended: for a function name other than the four handlers,
`Invoke` touches nothing (the stub is returned as it was, with no call made)
and fails with `Invalid function name` when the argument list is not empty,
and with `Invalid number of arguments` when it is empty. -/
theorem unknown_function (ts : Int → Int → GoString) (stub : Stub)
    (h1 : stub.function ≠ lit "createAsset") (h2 : stub.function ≠ lit "updateAsset")
    (h3 : stub.function ≠ lit "queryAsset") (h4 : stub.function ≠ lit "getAssetHistory") :
    (Invoke ts stub).2 = stub
    ∧ (stub.args ≠ [] → (Invoke ts stub).1 = shim.Error (lit "Invalid function name"))
    ∧ (stub.args = [] → (Invoke ts stub).1 = shim.Error (lit "Invalid number of arguments")) := by
  rcases hargs : stub.args with _ | ⟨a, t⟩
  · simp [Invoke, hargs]
  · simp [Invoke, hargs, h1, h2, h3, h4]

/-- Witness of C5: the function `deleteAsset` with one argument. -/
theorem unknown_function_witness :
    unknownCallOne.function ≠ lit "createAsset" ∧ unknownCallOne.function ≠ lit "updateAsset"
    ∧ unknownCallOne.function ≠ lit "queryAsset"
    ∧ unknownCallOne.function ≠ lit "getAssetHistory"
    ∧ unknownCallOne.args ≠ []
    ∧ (Invoke sampleTime unknownCallOne).2 = unknownCallOne
    ∧ (unknownCallOne.args ≠ [] →
        (Invoke sampleTime unknownCallOne).1 = shim.Error (lit "Invalid function name"))
    ∧ (unknownCallOne.args = [] →
        (Invoke sampleTime unknownCallOne).1 = shim.Error (lit "Invalid number of arguments")) :=
  ⟨by decide, by decide, by decide, by decide, by decide,
    unknown_function sampleTime unknownCallOne (by decide) (by decide) (by decide) (by decide)⟩

/-- Counterexample to C5 as stated: the function `deleteAsset` with the empty
argument list fails with `Invalid number of arguments`, not with
`Invalid function name`. -/
theorem unknown_function_counterexample :
    unknownCall.function ≠ lit "createAsset" ∧ unknownCall.function ≠ lit "updateAsset"
    ∧ unknownCall.function ≠ lit "queryAsset" ∧ unknownCall.function ≠ lit "getAssetHistory"
    ∧ unknownCall.args = []
    ∧ (Invoke sampleTime unknownCall).1 = shim.Error (lit "Invalid number of arguments")
    ∧ (Invoke sampleTime unknownCall).1 ≠ shim.Error (lit "Invalid function name") := by
  decide

/-- Claim C6: when one of the four handlers is invoked through `Invoke` with a
number of arguments other than its arity (8 for `createAsset` and
`updateAsset`, 1 for `queryAsset` and `getAssetHistory`), the response is an
error whose message is one of the three invalid-argument messages, and the stub
is returned as it was: no call is made on it and the store, the histories and
the events are unchanged. -/
theorem wrong_arity (ts : Int → Int → GoString) (stub : Stub)
    (h : ((stub.function = lit "createAsset" ∨ stub.function = lit "updateAsset")
          ∧ stub.args.length ≠ 8)
        ∨ ((stub.function = lit "queryAsset" ∨ stub.function = lit "getAssetHistory")
          ∧ stub.args.length ≠ 1)) :
    (Invoke ts stub).2 = stub
    ∧ (Invoke ts stub).1.Status = shim.ERROR
    ∧ ((Invoke ts stub).1.Message = lit "Invalid number of arguments"
        ∨ (Invoke ts stub).1.Message = lit "Incorrect number of arguments. Expecting 8"
        ∨ (Invoke ts stub).1.Message = lit "Incorrect number of arguments. Expecting 1") := by
  by_cases h0 : stub.args.length < 1
  · simp [Invoke, h0, shim.Error]
  · have n1 : lit "updateAsset" ≠ lit "createAsset" := by decide
    have n2 : lit "queryAsset" ≠ lit "createAsset" := by decide
    have n3 : lit "queryAsset" ≠ lit "updateAsset" := by decide
    have n4 : lit "getAssetHistory" ≠ lit "createAsset" := by decide
    have n5 : lit "getAssetHistory" ≠ lit "updateAsset" := by decide
    have n6 : lit "getAssetHistory" ≠ lit "queryAsset" := by decide
    rcases h with ⟨hf | hf, hl⟩ | ⟨hf | hf, hl⟩
    · simp [Invoke, h0, hf, createAsset_arity stub _ hl, shim.Error]
    · simp [Invoke, h0, hf, n1, updateAsset_arity stub _ hl, shim.Error]
    · simp [Invoke, h0, hf, n2, n3, queryAsset_arity stub _ hl, shim.Error]
    · simp [Invoke, h0, hf, n4, n5, n6, getAssetHistory_arity ts stub _ hl, shim.Error]

/-- Witness of C6: `queryAsset` invoked with two arguments. -/
theorem wrong_arity_witness :
    (((queryTwoCall.function = lit "createAsset" ∨ queryTwoCall.function = lit "updateAsset")
          ∧ queryTwoCall.args.length ≠ 8)
        ∨ ((queryTwoCall.function = lit "queryAsset"
            ∨ queryTwoCall.function = lit "getAssetHistory")
          ∧ queryTwoCall.args.length ≠ 1))
    ∧ (Invoke sampleTime queryTwoCall).2 = queryTwoCall
    ∧ (Invoke sampleTime queryTwoCall).1.Status = shim.ERROR
    ∧ ((Invoke sampleTime queryTwoCall).1.Message = lit "Invalid number of arguments"
        ∨ (Invoke sampleTime queryTwoCall).1.Message
            = lit "Incorrect number of arguments. Expecting 8"
        ∨ (Invoke sampleTime queryTwoCall).1.Message
            = lit "Incorrect number of arguments. Expecting 1") :=
  ⟨by decide, wrong_arity sampleTime queryTwoCall (by decide)⟩

/-- Claim C7: when neither `GetHistoryForKey` nor any `Next()` of the iterator
faults, `getAssetHistory([key])` returns success with the payload `[`, the
renderings of the entries of the history of the key, in iterator order,
separated by single commas, and `]`, one object per entry; an entry renders as
the specification words it (`specEntry`). -/
theorem history_rendering (ts : Int → Int → GoString) (stub : Stub) (key : GoString)
    (hh : stub.faults.getHistoryForKey key = none)
    (hn : ∀ i, stub.faults.next key i = none) :
    (getAssetHistory ts stub [key]).1
      = shim.Success (specHistory ts (mods (stub.history key)))
    ∧ ((mods (stub.history key)).map (specEntry ts)).length = (stub.history key).length := by
  rw [getAssetHistory_ok ts stub key hh hn]
  simp [mods]

/-- Witness of C7: the history of `D1` after the sample creation and update. -/
theorem history_rendering_witness :
    (getAssetHistory sampleTime
        (runWrites emptyStub (lit "D1") [sampleCreate, sampleUpdate]).2 [lit "D1"]).1
      = shim.Success (specHistory sampleTime
          (mods ((runWrites emptyStub (lit "D1") [sampleCreate, sampleUpdate]).2.history
            (lit "D1"))))
    ∧ ((mods ((runWrites emptyStub (lit "D1") [sampleCreate, sampleUpdate]).2.history
          (lit "D1"))).map (specEntry sampleTime)).length
        = ((runWrites emptyStub (lit "D1") [sampleCreate, sampleUpdate]).2.history
            (lit "D1")).length :=
  history_rendering sampleTime (runWrites emptyStub (lit "D1") [sampleCreate, sampleUpdate]).2
    (lit "D1") rfl (fun _ => rfl)

/-- Claim C8, amended: after a sequence of `N` successful `createAsset` and
`updateAsset` calls on one id, from a ledger where the id has no history, the
history of the id is the `N` entries of the calls, in call order;
`getAssetHistory([id])` renders exactly these entries; the value of the `i`-th
entry is the serialization of the record of the `i`-th call; no entry is a
deletion; the commit sequences are strictly increasing; and the value of an
entry deserializes to the record of its call when the fields of that record are
valid UTF-8. -/
theorem history_of_writes (ts : Int → Int → GoString) (stub : Stub) (id : GoString)
    (ws : List Write)
    (h0 : stub.history id = [])
    (hok : ∀ r ∈ (runWrites stub id ws).1, r.Status = shim.OK)
    (hh : stub.faults.getHistoryForKey id = none)
    (hn : ∀ i, stub.faults.next id i = none) :
    (runWrites stub id ws).2.history id = expectedHistory id 0 ws
    ∧ (getAssetHistory ts (runWrites stub id ws).2 [id]).1
        = shim.Success (specHistory ts (mods (expectedHistory id 0 ws)))
    ∧ (mods (expectedHistory id 0 ws)).length = ws.length
    ∧ (mods (expectedHistory id 0 ws)).map KeyModification.Value
        = ws.map (fun w => encodeDealerAsset (w.asset id))
    ∧ (mods (expectedHistory id 0 ws)).map KeyModification.IsDelete
        = List.replicate ws.length false
    ∧ List.Pairwise (fun a b => a.seq < b.seq) ((runWrites stub id ws).2.history id)
    ∧ (∀ w ∈ ws, (w.asset id).Valid = true →
        json.Unmarshal (encodeDealerAsset (w.asset id)) = some (w.asset id)) := by
  obtain ⟨h1, h2⟩ := runWrites_ok id ws stub hok
  rw [h0] at h1
  simp only [List.nil_append, List.length_nil] at h1
  have hseq := expectedHistory_seq id ws 0
  refine ⟨h1, ?_, ?_, expectedHistory_value id ws 0, expectedHistory_isDelete id ws 0, ?_, ?_⟩
  · rw [getAssetHistory_ok ts (runWrites stub id ws).2 id (by rw [h2]; exact hh)
      (by rw [h2]; exact hn), h1]
  · have := congrArg List.length hseq
    simpa [mods] using this
  · rw [h1]
    have hp : List.Pairwise (· < ·) ((expectedHistory id 0 ws).map HistoryEntry.seq) := by
      rw [hseq]; exact List.pairwise_lt_range' 0 ws.length
    exact (List.pairwise_map.mp hp)
  · intro w _ hv
    rw [Unmarshal_encode, coerce_valid _ hv]

/-- Witness of C8: the sample creation followed by the sample update, on the
empty ledger. -/
theorem history_of_writes_witness :
    emptyStub.history (lit "D1") = []
    ∧ (runWrites emptyStub (lit "D1") [sampleCreate, sampleUpdate]).1
        = [shim.Success [], shim.Success []]
    ∧ (runWrites emptyStub (lit "D1") [sampleCreate, sampleUpdate]).2.history (lit "D1")
        = expectedHistory (lit "D1") 0 [sampleCreate, sampleUpdate]
    ∧ (getAssetHistory sampleTime
          (runWrites emptyStub (lit "D1") [sampleCreate, sampleUpdate]).2 [lit "D1"]).1
        = shim.Success (specHistory sampleTime
            (mods (expectedHistory (lit "D1") 0 [sampleCreate, sampleUpdate])))
    ∧ (mods (expectedHistory (lit "D1") 0 [sampleCreate, sampleUpdate])).length
        = [sampleCreate, sampleUpdate].length
    ∧ (mods (expectedHistory (lit "D1") 0 [sampleCreate, sampleUpdate])).map
          KeyModification.Value
        = [sampleCreate, sampleUpdate].map (fun w => encodeDealerAsset (w.asset (lit "D1")))
    ∧ (mods (expectedHistory (lit "D1") 0 [sampleCreate, sampleUpdate])).map
          KeyModification.IsDelete
        = List.replicate [sampleCreate, sampleUpdate].length false
    ∧ List.Pairwise (fun a b => a.seq < b.seq)
        ((runWrites emptyStub (lit "D1") [sampleCreate, sampleUpdate]).2.history (lit "D1"))
    ∧ (∀ w ∈ [sampleCreate, sampleUpdate], (w.asset (lit "D1")).Valid = true →
        json.Unmarshal (encodeDealerAsset (w.asset (lit "D1"))) = some (w.asset (lit "D1"))) :=
  ⟨rfl, by decide,
    history_of_writes sampleTime emptyStub (lit "D1") [sampleCreate, sampleUpdate] rfl
      (by decide) rfl (fun _ => rfl)⟩

set_option maxRecDepth 100000 in
/-- Counterexample to C8 as stated: a single successful `createAsset` whose
second argument is the byte 0xFF leaves a single history entry, and the value
of that entry deserializes to a record that is not the created one. -/
theorem history_of_writes_counterexample :
    emptyStub.history (lit "D1") = []
    ∧ (runWrites emptyStub (lit "D1") [badCreate]).1 = [shim.Success []]
    ∧ (mods ((runWrites emptyStub (lit "D1") [badCreate]).2.history (lit "D1"))).map
        KeyModification.Value = [encodeDealerAsset (badCreate.asset (lit "D1"))]
    ∧ json.Unmarshal (encodeDealerAsset (badCreate.asset (lit "D1"))) = some badAssetCoerced
    ∧ some badAssetCoerced ≠ some (badCreate.asset (lit "D1")) := by
  decide

/-- Claim C9, amended: for every record whose eight fields are valid UTF-8
(empty fields included), deserializing the serialized form gives the record
back. -/
theorem roundTrip_valid (r : DealerAsset) (hvalid : r.Valid = true) : roundTrip r = some r := by
  simp only [roundTrip, json.Marshal]
  rw [Unmarshal_encode, coerce_valid r hvalid]

/-- Witness of C9: the record of the example of the specification. -/
theorem roundTrip_valid_witness :
    sampleAsset.Valid = true ∧ roundTrip sampleAsset = some sampleAsset :=
  ⟨by decide, roundTrip_valid sampleAsset (by decide)⟩

set_option maxRecDepth 100000 in
/-- Counterexample to C9 as stated: the record whose second field is the byte
0xFF deserializes, after serialization, to the record whose second field is
U+FFFD; and no deserialization can give it back, since the record whose second
field is the byte 0xFE has the same serialized form. -/
theorem roundTrip_counterexample :
    roundTrip badAsset = some badAssetCoerced
    ∧ roundTrip badAsset ≠ some badAsset
    ∧ encodeDealerAsset badAsset = encodeDealerAsset badAssetTwin
    ∧ badAsset ≠ badAssetTwin := by
  decide

/-- Claim C10: when the store holds the bytes `b` under `id` and the read does
not fault, `queryAsset([id])` returns success with the payload `b`, unchanged. -/
theorem query_returns_stored (stub : Stub) (id : GoString) (b : Bytes)
    (hst : stub.state id = some b) (hget : stub.faults.getState id = none) :
    (queryAsset stub [id]).1 = shim.Success b := by
  rw [queryAsset_some stub id b hst hget]

/-- Witness of C10: the stored bytes `x` under `D1`. -/
theorem query_returns_stored_witness :
    storedStub.state (lit "D1") = some (lit "x")
    ∧ (queryAsset storedStub [lit "D1"]).1 = shim.Success (lit "x") :=
  ⟨rfl, query_returns_stored storedStub (lit "D1") (lit "x") rfl rfl⟩

/-- Claim C11: every successful `createAsset(args)` has eight arguments, adds
exactly one event to those emitted, the event `AssetCreated` whose payload is
the bytes of `args[0]`, and makes its calls in the order `GetState`, `PutState`,
`SetEvent`: the event is emitted after the record has been written, and the
record is in the store under `args[0]`. -/
theorem create_emits_once (stub : Stub) (args : List GoString)
    (hok : (createAsset stub args).1.Status = shim.OK) :
    args.length = 8
    ∧ (createAsset stub args).2.events
        = stub.events ++ [(lit "AssetCreated", args.getD 0 [])]
    ∧ (createAsset stub args).2.calls
        = stub.calls ++ [Call.GetState (args.getD 0 []),
            Call.PutState (args.getD 0 []) (encodeDealerAsset (assetOf args)),
            Call.SetEvent (lit "AssetCreated") (args.getD 0 [])]
    ∧ (createAsset stub args).2.state (args.getD 0 [])
        = some (encodeDealerAsset (assetOf args)) := by
  by_cases hlen : args.length = 8
  · obtain ⟨a0, a1, a2, a3, a4, a5, a6, a7, rfl⟩ := length_eight args hlen
    simp only [assetOf, List.getD_cons_zero, List.getD_cons_succ]
    rcases createAsset_cases stub a0 a1 a2 a3 a4 a5 a6 a7 with
      ⟨hg, hs, hp, he, _⟩ | ⟨hr, _⟩
    · rw [createAsset_ok stub a0 a1 a2 a3 a4 a5 a6 a7 hs hg hp he]
      simp
    · rw [hr] at hok
      exact absurd hok status_ne
  · rw [createAsset_arity stub args hlen] at hok
    exact absurd hok status_ne

/-- Witness of C11: the creation of the sample record on the empty ledger. -/
theorem create_emits_once_witness :
    (createAsset emptyStub sampleAsset.args).1.Status = shim.OK
    ∧ sampleAsset.args.length = 8
    ∧ (createAsset emptyStub sampleAsset.args).2.events
        = emptyStub.events ++ [(lit "AssetCreated", sampleAsset.args.getD 0 [])]
    ∧ (createAsset emptyStub sampleAsset.args).2.calls
        = emptyStub.calls ++ [Call.GetState (sampleAsset.args.getD 0 []),
            Call.PutState (sampleAsset.args.getD 0 [])
              (encodeDealerAsset (assetOf sampleAsset.args)),
            Call.SetEvent (lit "AssetCreated") (sampleAsset.args.getD 0 [])]
    ∧ (createAsset emptyStub sampleAsset.args).2.state (sampleAsset.args.getD 0 [])
        = some (encodeDealerAsset (assetOf sampleAsset.args)) :=
  ⟨rfl, create_emits_once emptyStub sampleAsset.args rfl⟩

/-- Claim C12: no record with an empty id is ever stored.  For every store and
every argument list whose first element is the empty string, `createAsset` and
`updateAsset` answer an error and leave the whole store as it was, so nothing is
written under the empty key; and every record in a store reached from the empty
store through `createAsset` and `updateAsset` calls is stored under a key that
is not empty and is its id. -/
theorem empty_id_not_stored (stub : Stub) :
    (∀ args : List GoString, args.getD 0 [] = [] →
      (createAsset stub args).1.Status = shim.ERROR
      ∧ (createAsset stub args).2.state = stub.state
      ∧ (updateAsset stub args).1.Status = shim.ERROR
      ∧ (updateAsset stub args).2.state = stub.state)
    ∧ (stub.state = (fun _ => none) → ∀ ops k v, (runOps stub ops).state k = some v →
        k ≠ [] ∧ ∃ a, v = encodeDealerAsset a ∧ a.DEALERID = k ∧ a.DEALERID ≠ []) := by
  constructor
  · intro args h0
    have hno : ∀ v, stub.faults.putState [] v ≠ none :=
      fun v h => (stub.faults.putState_key [] v h).1 rfl
    by_cases hlen : args.length = 8
    · obtain ⟨a0, a1, a2, a3, a4, a5, a6, a7, rfl⟩ := length_eight args hlen
      simp only [List.getD_cons_zero] at h0
      subst h0
      refine ⟨?_, ?_, ?_, ?_⟩
      · rcases createAsset_cases stub [] a1 a2 a3 a4 a5 a6 a7 with ⟨_, _, hp, _⟩ | ⟨hr, _⟩
        · exact absurd hp (hno _)
        · exact hr
      · rcases createAsset_cases stub [] a1 a2 a3 a4 a5 a6 a7 with ⟨_, _, hp, _⟩ | ⟨_, hs, _⟩
        · exact absurd hp (hno _)
        · exact hs
      · rcases updateAsset_cases stub [] a1 a2 a3 a4 a5 a6 a7 with ⟨hp, _⟩ | ⟨hr, _⟩
        · exact absurd hp (hno _)
        · exact hr
      · rcases updateAsset_cases stub [] a1 a2 a3 a4 a5 a6 a7 with ⟨hp, _⟩ | ⟨_, hs, _⟩
        · exact absurd hp (hno _)
        · exact hs
    · rw [createAsset_arity stub args hlen, updateAsset_arity stub args hlen]
      exact ⟨rfl, rfl, rfl, rfl⟩
  · intro hempty ops k v hv
    obtain ⟨a, ha, hid, hk, _⟩ := runOps_records ops stub
      (by intro k v h; rw [hempty] at h; cases h) k v hv
    exact ⟨hk, a, ha, hid, by rw [hid]; exact hk⟩

set_option maxRecDepth 100000 in
/-- Witness of C12: on the empty ledger, the creation and the update of the
sample record with the empty string as its id, and the key `D1` after the sample
creation and update. -/
theorem empty_id_not_stored_witness :
    emptyIdAsset.args.getD 0 [] = []
    ∧ emptyIdAsset.args.length = 8
    ∧ ((createAsset emptyStub emptyIdAsset.args).1.Status = shim.ERROR
      ∧ (createAsset emptyStub emptyIdAsset.args).2.state = emptyStub.state
      ∧ (updateAsset emptyStub emptyIdAsset.args).1.Status = shim.ERROR
      ∧ (updateAsset emptyStub emptyIdAsset.args).2.state = emptyStub.state)
    ∧ emptyStub.state = (fun _ => none)
    ∧ (runOps emptyStub sampleOps).state (lit "D1") = some (encodeDealerAsset sampleAsset)
    ∧ (lit "D1" ≠ [] ∧ ∃ a, encodeDealerAsset sampleAsset = encodeDealerAsset a
        ∧ a.DEALERID = lit "D1" ∧ a.DEALERID ≠ []) :=
  ⟨rfl, rfl, (empty_id_not_stored emptyStub).1 emptyIdAsset.args rfl, rfl, by decide,
    (empty_id_not_stored emptyStub).2 rfl sampleOps (lit "D1") (encodeDealerAsset sampleAsset)
      (by decide)⟩

/-- Claim C13: each operation is atomic with respect to failure.  For every
store and argument list, if the response `createAsset` or `updateAsset` returns
is an error (arity failure, duplicate key, read or write fault, failure of the
event emission), then no write has been applied: the store and the history of
every key, and the events, are identical to those before the call. -/
theorem failure_leaves_store (stub : Stub) (args : List GoString) (r : Response × Stub)
    (hr : r = createAsset stub args ∨ r = updateAsset stub args)
    (herr : r.1.Status ≠ shim.OK) :
    r.2.state = stub.state ∧ r.2.history = stub.history ∧ r.2.events = stub.events := by
  by_cases hlen : args.length = 8
  · obtain ⟨a0, a1, a2, a3, a4, a5, a6, a7, rfl⟩ := length_eight args hlen
    rcases hr with rfl | rfl
    · rcases createAsset_cases stub a0 a1 a2 a3 a4 a5 a6 a7 with
        ⟨_, _, _, _, hs⟩ | ⟨_, h1, h2, h3⟩
      · rw [hs] at herr; exact absurd rfl herr
      · exact ⟨h1, h2, h3⟩
    · rcases updateAsset_cases stub a0 a1 a2 a3 a4 a5 a6 a7 with ⟨_, hs⟩ | ⟨_, h1, h2, h3⟩
      · rw [hs] at herr; exact absurd rfl herr
      · exact ⟨h1, h2, h3⟩
  · rcases hr with rfl | rfl
    · rw [createAsset_arity stub args hlen]; exact ⟨rfl, rfl, rfl⟩
    · rw [updateAsset_arity stub args hlen]; exact ⟨rfl, rfl, rfl⟩

set_option maxRecDepth 100000 in
/-- Witness of C13: the creation of the sample record on a platform where the
emission of the event fails, after the write has been accepted. -/
theorem failure_leaves_store_witness :
    (createAsset eventFaultStub sampleAsset.args).1 = shim.Error (lit "event failure")
    ∧ (createAsset eventFaultStub sampleAsset.args).2.calls
        = [Call.GetState (lit "D1"), Call.PutState (lit "D1") (encodeDealerAsset sampleAsset),
            Call.SetEvent (lit "AssetCreated") (lit "D1")]
    ∧ (createAsset eventFaultStub sampleAsset.args).1.Status ≠ shim.OK
    ∧ (createAsset eventFaultStub sampleAsset.args).2.state = eventFaultStub.state
    ∧ (createAsset eventFaultStub sampleAsset.args).2.history = eventFaultStub.history
    ∧ (createAsset eventFaultStub sampleAsset.args).2.events = eventFaultStub.events :=
  ⟨by decide, by decide, by decide,
    failure_leaves_store eventFaultStub sampleAsset.args
      (createAsset eventFaultStub sampleAsset.args) (Or.inl rfl) (by decide)⟩

/-- Claim C14, amended: the transaction that the handler of `POST /createAsset`
submits, the function name `CreateAsset` with the three arguments id, name and
decimal value, does not reach `createAsset` of the chaincode: `Invoke` answers
the error `Invalid function name` without a call on the stub, so the handler
relays the error with status 500; and `createAsset` itself rejects the three
arguments with the arity error. -/
theorem http_create_not_dispatched (ts : Int → Int → GoString) (stub : Stub) (asset : Asset) :
    dispatch ts stub (lit "CreateAsset") [asset.ID, asset.Name, formatInt asset.Value]
      = (shim.Error (lit "Invalid function name"),
          { stub with function := lit "CreateAsset",
                      args := [asset.ID, asset.Name, formatInt asset.Value] })
    ∧ api.createAsset (submitTo ts stub) asset
      = ⟨500, lit "error", lit "Invalid function name"⟩
    ∧ (createAsset stub [asset.ID, asset.Name, formatInt asset.Value]).1
      = shim.Error (lit "Incorrect number of arguments. Expecting 8") := by
  have n1 : lit "CreateAsset" ≠ lit "createAsset" := by decide
  have n2 : lit "CreateAsset" ≠ lit "updateAsset" := by decide
  have n3 : lit "CreateAsset" ≠ lit "queryAsset" := by decide
  have n4 : lit "CreateAsset" ≠ lit "getAssetHistory" := by decide
  have h : dispatch ts stub (lit "CreateAsset") [asset.ID, asset.Name, formatInt asset.Value]
      = (shim.Error (lit "Invalid function name"),
          { stub with function := lit "CreateAsset",
                      args := [asset.ID, asset.Name, formatInt asset.Value] }) := by
    simp [dispatch, Invoke, n1, n2, n3, n4]
  refine ⟨h, ?_, rfl⟩
  simp only [api.createAsset, submitTo, h, relay, shim.Error, shim.ERROR]
  simp

/-- Counterexample to C14 as stated: for the body `A1`, `car`, 5 on the empty
ledger, the dispatch answers `Invalid function name`, no record is stored under
`A1`, and the handler answers with status 500. -/
theorem http_create_not_dispatched_counterexample :
    (dispatch sampleTime emptyStub (lit "CreateAsset")
        [sampleBody.ID, sampleBody.Name, formatInt sampleBody.Value]).1
      = shim.Error (lit "Invalid function name")
    ∧ (dispatch sampleTime emptyStub (lit "CreateAsset")
        [sampleBody.ID, sampleBody.Name, formatInt sampleBody.Value]).2.state sampleBody.ID
      = none
    ∧ (api.createAsset (submitTo sampleTime emptyStub) sampleBody).status = 500 := by
  decide

/-- Claim C15: for eight arguments and every key `k` other than `args[0]`, the
value stored under `k` and the history of `k` are the same after `createAsset`
as before it, and the same after `updateAsset` as before it, whether the call
succeeds or fails. -/
theorem single_key (stub : Stub) (args : List GoString) (k : GoString)
    (hlen : args.length = 8) (hk : k ≠ args.getD 0 []) :
    (createAsset stub args).2.state k = stub.state k
    ∧ (createAsset stub args).2.history k = stub.history k
    ∧ (updateAsset stub args).2.state k = stub.state k
    ∧ (updateAsset stub args).2.history k = stub.history k := by
  obtain ⟨a0, a1, a2, a3, a4, a5, a6, a7, rfl⟩ := length_eight args hlen
  simp only [List.getD_cons_zero] at hk
  refine ⟨?_, ?_, ?_, ?_⟩
  · rcases createAsset_cases stub a0 a1 a2 a3 a4 a5 a6 a7 with
      ⟨hg, hs, hp, he, _⟩ | ⟨_, h1, _⟩
    · rw [createAsset_ok stub a0 a1 a2 a3 a4 a5 a6 a7 hs hg hp he]; simp [hk]
    · rw [h1]
  · rcases createAsset_cases stub a0 a1 a2 a3 a4 a5 a6 a7 with
      ⟨hg, hs, hp, he, _⟩ | ⟨_, _, h2, _⟩
    · rw [createAsset_ok stub a0 a1 a2 a3 a4 a5 a6 a7 hs hg hp he]; simp [hk]
    · rw [h2]
  · rcases updateAsset_cases stub a0 a1 a2 a3 a4 a5 a6 a7 with ⟨hp, _⟩ | ⟨_, h1, _⟩
    · rw [updateAsset_ok stub a0 a1 a2 a3 a4 a5 a6 a7 hp]; simp [hk]
    · rw [h1]
  · rcases updateAsset_cases stub a0 a1 a2 a3 a4 a5 a6 a7 with ⟨hp, _⟩ | ⟨_, _, h2, _⟩
    · rw [updateAsset_ok stub a0 a1 a2 a3 a4 a5 a6 a7 hp]; simp [hk]
    · rw [h2]

/-- Witness of C15: the key `D2` when the sample record `D1` is written. -/
theorem single_key_witness :
    sampleAsset.args.length = 8
    ∧ lit "D2" ≠ sampleAsset.args.getD 0 []
    ∧ (createAsset emptyStub sampleAsset.args).2.state (lit "D2") = emptyStub.state (lit "D2")
    ∧ (createAsset emptyStub sampleAsset.args).2.history (lit "D2")
        = emptyStub.history (lit "D2")
    ∧ (updateAsset emptyStub sampleAsset.args).2.state (lit "D2") = emptyStub.state (lit "D2")
    ∧ (updateAsset emptyStub sampleAsset.args).2.history (lit "D2")
        = emptyStub.history (lit "D2") :=
  ⟨rfl, by decide, single_key emptyStub sampleAsset.args (lit "D2") rfl (by decide)⟩

/-- Claim C16: the id of a stored record equals the key it is stored under.  In
every store reached from the empty store by a sequence of `createAsset` and
`updateAsset` calls, the value under a present key `k` is the serialization of a
record whose `DEALERID` is `k`, and it deserializes to a record whose
`DEALERID` is `k`. -/
theorem stored_id_is_key (stub : Stub) (ops : List Op) (k : GoString) (v : Bytes)
    (hempty : stub.state = fun _ => none)
    (hv : (runOps stub ops).state k = some v) :
    storedId v = some k ∧ ∃ a, v = encodeDealerAsset a ∧ a.DEALERID = k := by
  obtain ⟨a, rfl, hid, _, hvalid⟩ := runOps_records ops stub
    (by intro k v h; rw [hempty] at h; cases h) k v hv
  refine ⟨?_, a, rfl, hid⟩
  rw [storedId_encode, hid, coerceUTF8_valid k hvalid]

set_option maxRecDepth 100000 in
/-- Witness of C16: the key `D1` after the sample creation and update. -/
theorem stored_id_is_key_witness :
    emptyStub.state = (fun _ => none)
    ∧ (runOps emptyStub sampleOps).state (lit "D1") = some (encodeDealerAsset sampleAsset)
    ∧ storedId (encodeDealerAsset sampleAsset) = some (lit "D1")
    ∧ ∃ a, encodeDealerAsset sampleAsset = encodeDealerAsset a ∧ a.DEALERID = lit "D1" :=
  ⟨rfl, by decide,
    stored_id_is_key emptyStub sampleOps (lit "D1") (encodeDealerAsset sampleAsset) rfl
      (by decide)⟩

/-- Claim C17: for every stub and argument list, `queryAsset` and
`getAssetHistory` return the stub with nothing changed but the recorded calls
(store, histories and events are the same), the only call they add is their read
(`GetState`, `GetHistoryForKey`), and the same call made again on the returned
stub gives the same response. -/
theorem reads_only (ts : Int → Int → GoString) (stub : Stub) (args : List GoString) :
    ((queryAsset stub args).2 = { stub with calls := (queryAsset stub args).2.calls }
      ∧ ((queryAsset stub args).2.calls = stub.calls
        ∨ (queryAsset stub args).2.calls = stub.calls ++ [Call.GetState (args.getD 0 [])])
      ∧ (queryAsset (queryAsset stub args).2 args).1 = (queryAsset stub args).1)
    ∧ ((getAssetHistory ts stub args).2
        = { stub with calls := (getAssetHistory ts stub args).2.calls }
      ∧ ((getAssetHistory ts stub args).2.calls = stub.calls
        ∨ (getAssetHistory ts stub args).2.calls
            = stub.calls ++ [Call.GetHistoryForKey (args.getD 0 [])])
      ∧ (getAssetHistory ts (getAssetHistory ts stub args).2 args).1
          = (getAssetHistory ts stub args).1) := by
  by_cases hlen : args.length = 1
  · obtain ⟨a0, rfl⟩ : ∃ a0, args = [a0] := by
      rcases args with _ | ⟨a0, _ | ⟨a1, t⟩⟩ <;> simp at hlen
      exact ⟨a0, rfl⟩
    constructor
    · rcases hg : stub.faults.getState a0 with _ | err
      · rcases hs : stub.state a0 with _ | v <;>
          simp [queryAsset, Stub.GetState, hg, hs]
      · simp [queryAsset, Stub.GetState, hg]
    · rcases hg : stub.faults.getHistoryForKey a0 with _ | err
      · rcases hl : historyLoop ts (Stub.iterate (stub.faults.next a0) 0 (stub.history a0))
          (lit "[") false with err | buf <;>
          simp [getAssetHistory, Stub.GetHistoryForKey, hg, hl]
      · simp [getAssetHistory, Stub.GetHistoryForKey, hg]
  · rw [queryAsset_arity stub args hlen, getAssetHistory_arity ts stub args hlen]
    simp [queryAsset_arity stub args hlen, getAssetHistory_arity ts stub args hlen]

end DAsset
